import Mathlib

/-!
Verification of the studio-cpp Arduino LVGL import/export engine.

Shallow embedding of the LVGL C++ parser (`cpp-parser.ts`), the importer
conversion (`arduino-importer.ts`) and the code generator
(`arduino-exporter.ts`).  The TypeScript code recognises a fixed catalogue
of line-local regular expressions; we embed those regexes as token lists
interpreted by a leftmost, greedy, backtracking matcher that follows
JavaScript `String.prototype.match` semantics for this pattern class
(sequences of literals and greedy character-class repetitions).

JavaScript `Map` objects keyed by widget name hold references to the same
widget objects stored in the `widgets` array; we model this aliasing by
storing widgets in a list and letting the map carry indices into that list.
-/

namespace StudioCpp

/-- JS `\w`: ASCII letters, digits and underscore. -/
def isWordChar (c : Char) : Bool := c.isAlphanum || c = '_'

/-- JS `\s` restricted to the ASCII whitespace that can occur in a line. -/
def isSpaceChar (c : Char) : Bool :=
  c = ' ' || c = '\t' || c = '\n' || c = '\r' || c = '\x0b' || c = '\x0c'

/-- Hex digit as in the character class `[0-9A-Fa-f]`. -/
def isHexChar (c : Char) : Bool :=
  c.isDigit || ('a' ≤ c && c ≤ 'f') || ('A' ≤ c && c ≤ 'F')

/-- One token of a linear regular expression: a literal string, a greedy
`+` repetition of a character class, or a greedy `*` repetition. -/
inductive RTok where
  | lit : List Char → RTok
  | plus : (Char → Bool) → RTok
  | star : (Char → Bool) → RTok

/-- Greedy backtracking: try to consume `i` characters of `cs` (longest
first, down to `lo`) before running the continuation `f` on the rest.
Returns the consumed prefix together with the continuation's result. -/
def tryIdx (f : List Char → Option α) (cs : List Char) (lo : Nat) :
    Nat → Option (List Char × α)
  | 0 => if lo = 0 then (f cs).map (fun r => (([] : List Char), r)) else none
  | i + 1 =>
    if i + 1 < lo then none
    else
      match f (cs.drop (i + 1)) with
      | some r => some (cs.take (i + 1), r)
      | none => tryIdx f cs lo i

/-- Anchored match of a token sequence against `cs`; on success returns the
list of chunks consumed by each token (in order) and the remaining input.
Greedy repetitions backtrack, exactly as a JS regex engine would on these
alternation-free patterns. -/
def matchToks : List RTok → List Char → Option (List (List Char) × List Char)
  | [], cs => some ([], cs)
  | .lit l :: rest, cs =>
    if l.isPrefixOf cs then
      (matchToks rest (cs.drop l.length)).map (fun gr => (l :: gr.1, gr.2))
    else none
  | .plus p :: rest, cs =>
    let run := (cs.takeWhile p).length
    if run = 0 then none
    else
      (tryIdx (fun s => matchToks rest s) cs 1 run).map
        (fun gr => (gr.1 :: gr.2.1, gr.2.2))
  | .star p :: rest, cs =>
    let run := (cs.takeWhile p).length
    (tryIdx (fun s => matchToks rest s) cs 0 run).map
      (fun gr => (gr.1 :: gr.2.1, gr.2.2))

/-- Unanchored search: try the anchored match at position 0, 1, …; the
first (leftmost) successful position wins, like JS `String.match`. -/
def searchToks (toks : List RTok) : List Char → Option (List (List Char))
  | [] =>
    match matchToks toks [] with
    | some gr => some gr.1
    | none => none
  | c :: cs' =>
    match matchToks toks (c :: cs') with
    | some gr => some gr.1
    | none => searchToks toks cs'

/-! ## The concrete recognizers of `cpp-parser.ts`

Each TypeScript regex literal is transliterated token by token. -/

/-- Regex `/(\w+)\s*=\s*lv_(\w+)_create\(([^)]+)\)\s*;/` -/
def reCreate : List RTok :=
  [.plus isWordChar, .star isSpaceChar, .lit ['='], .star isSpaceChar,
   .lit "lv_".data, .plus isWordChar, .lit "_create(".data,
   .plus (fun c => c ≠ ')'), .lit [')'], .star isSpaceChar, .lit [';']]

/-- The capture groups of the widget-creation regex: variable name, widget
kind, raw parent argument. -/
def matchCreate (cs : List Char) : Option (String × String × String) :=
  match searchToks reCreate cs with
  | some [v, _, _, _, _, k, _, a, _, _, _] =>
    some (String.mk v, String.mk k, String.mk a)
  | _ => none

/-- Regex `/lv_\w+_set_text\((\w+),\s*"([^"]+)"\s*\)/` -/
def reSetText : List RTok :=
  [.lit "lv_".data, .plus isWordChar, .lit "_set_text(".data,
   .plus isWordChar, .lit [','], .star isSpaceChar, .lit ['"'],
   .plus (fun c => c ≠ '"'), .lit ['"'], .star isSpaceChar, .lit [')']]

def matchSetText (cs : List Char) : Option (String × String) :=
  match searchToks reSetText cs with
  | some [_, _, _, v, _, _, _, t, _, _, _] => some (String.mk v, String.mk t)
  | _ => none

/-- Regex `/lv_obj_set_size\((\w+),\s*([^,]+),\s*([^)]+)\)/` -/
def reSetSize : List RTok :=
  [.lit "lv_obj_set_size(".data, .plus isWordChar, .lit [','],
   .star isSpaceChar, .plus (fun c => c ≠ ','), .lit [','],
   .star isSpaceChar, .plus (fun c => c ≠ ')'), .lit [')']]

def matchSetSize (cs : List Char) : Option (String × List Char × List Char) :=
  match searchToks reSetSize cs with
  | some [_, v, _, _, w, _, _, h, _] => some (String.mk v, w, h)
  | _ => none

/-- Regex `/lv_\w+_set_value\((\w+),\s*([^)]+)\)/` -/
def reSetValue : List RTok :=
  [.lit "lv_".data, .plus isWordChar, .lit "_set_value(".data,
   .plus isWordChar, .lit [','], .star isSpaceChar,
   .plus (fun c => c ≠ ')'), .lit [')']]

def matchSetValue (cs : List Char) : Option (String × List Char) :=
  match searchToks reSetValue cs with
  | some [_, _, _, v, _, _, x, _] => some (String.mk v, x)
  | _ => none

/-- Regex `/lv_\w+_set_range\((\w+),\s*([^,]+),\s*([^)]+)\)/` -/
def reSetRange : List RTok :=
  [.lit "lv_".data, .plus isWordChar, .lit "_set_range(".data,
   .plus isWordChar, .lit [','], .star isSpaceChar,
   .plus (fun c => c ≠ ','), .lit [','], .star isSpaceChar,
   .plus (fun c => c ≠ ')'), .lit [')']]

def matchSetRange (cs : List Char) : Option (String × List Char × List Char) :=
  match searchToks reSetRange cs with
  | some [_, _, _, v, _, _, mn, _, _, mx, _] => some (String.mk v, mn, mx)
  | _ => none

/-- Regex `/lv_obj_set_style_bg_color\((\w+),\s*lv_color_hex\((0x[0-9A-Fa-f]+)\)/` -/
def reBgColor : List RTok :=
  [.lit "lv_obj_set_style_bg_color(".data, .plus isWordChar, .lit [','],
   .star isSpaceChar, .lit "lv_color_hex(".data, .lit "0x".data,
   .plus isHexChar, .lit [')']]

def matchBgColor (cs : List Char) : Option (String × String) :=
  match searchToks reBgColor cs with
  | some [_, v, _, _, _, _, hx, _] =>
    some (String.mk v, String.mk ("0x".data ++ hx))
  | _ => none

/-- Regex `/lv_obj_set_style_text_color\((\w+),\s*lv_color_hex\((0x[0-9A-Fa-f]+)\)/` -/
def reTextColor : List RTok :=
  [.lit "lv_obj_set_style_text_color(".data, .plus isWordChar, .lit [','],
   .star isSpaceChar, .lit "lv_color_hex(".data, .lit "0x".data,
   .plus isHexChar, .lit [')']]

def matchTextColor (cs : List Char) : Option (String × String) :=
  match searchToks reTextColor cs with
  | some [_, v, _, _, _, _, hx, _] =>
    some (String.mk v, String.mk ("0x".data ++ hx))
  | _ => none

/-- Regex `/lv_obj_set_style_text_font\((\w+),\s*&(lv_font_\w+)/` -/
def reTextFont : List RTok :=
  [.lit "lv_obj_set_style_text_font(".data, .plus isWordChar, .lit [','],
   .star isSpaceChar, .lit ['&'], .lit "lv_font_".data, .plus isWordChar]

def matchTextFont (cs : List Char) : Option (String × String) :=
  match searchToks reTextFont cs with
  | some [_, v, _, _, _, _, f] =>
    some (String.mk v, String.mk ("lv_font_".data ++ f))
  | _ => none

/-- Regex `/lv_obj_set_style_radius\((\w+),\s*([^,]+)/` -/
def reRadius : List RTok :=
  [.lit "lv_obj_set_style_radius(".data, .plus isWordChar, .lit [','],
   .star isSpaceChar, .plus (fun c => c ≠ ',')]

def matchRadius (cs : List Char) : Option (String × List Char) :=
  match searchToks reRadius cs with
  | some [_, v, _, _, r] => some (String.mk v, r)
  | _ => none

/-- Regex `/lv_obj_set_style_border_opa\((\w+),\s*([^,]+)/` -/
def reBorderOpa : List RTok :=
  [.lit "lv_obj_set_style_border_opa(".data, .plus isWordChar, .lit [','],
   .star isSpaceChar, .plus (fun c => c ≠ ',')]

def matchBorderOpa (cs : List Char) : Option (String × List Char) :=
  match searchToks reBorderOpa cs with
  | some [_, v, _, _, r] => some (String.mk v, r)
  | _ => none

/-- Regex `/lv_obj_align\((\w+),\s*([^,]+),\s*([^,]+),\s*([^)]+)\)/` -/
def reAlign : List RTok :=
  [.lit "lv_obj_align(".data, .plus isWordChar, .lit [','],
   .star isSpaceChar, .plus (fun c => c ≠ ','), .lit [','],
   .star isSpaceChar, .plus (fun c => c ≠ ','), .lit [','],
   .star isSpaceChar, .plus (fun c => c ≠ ')'), .lit [')']]

def matchAlign (cs : List Char) :
    Option (String × List Char × List Char × List Char) :=
  match searchToks reAlign cs with
  | some [_, v, _, _, al, _, _, x, _, _, y, _] => some (String.mk v, al, x, y)
  | _ => none

/-- Regex `/lv_obj_center\((\w+)\)/` -/
def reCenter : List RTok :=
  [.lit "lv_obj_center(".data, .plus isWordChar, .lit [')']]

def matchCenter (cs : List Char) : Option String :=
  match searchToks reCenter cs with
  | some [_, v, _] => some (String.mk v)
  | _ => none

/-- Regex `/lv_obj_t\s*\*\s*(\w+)\s*=\s*NULL\s*;/` -/
def reGlobalVar : List RTok :=
  [.lit "lv_obj_t".data, .star isSpaceChar, .lit ['*'], .star isSpaceChar,
   .plus isWordChar, .star isSpaceChar, .lit ['='], .star isSpaceChar,
   .lit "NULL".data, .star isSpaceChar, .lit [';']]

def matchGlobalVar (cs : List Char) : Option String :=
  match searchToks reGlobalVar cs with
  | some [_, _, _, _, v, _, _, _, _, _, _] => some (String.mk v)
  | _ => none

/-- Regex `/LV_PCT\((\d+)\)/` -/
def reLVPct : List RTok :=
  [.lit "LV_PCT(".data, .plus Char.isDigit, .lit [')']]

def matchLVPct (cs : List Char) : Option (List Char) :=
  match searchToks reLVPct cs with
  | some [_, d, _] => some d
  | _ => none

/-! ## JavaScript string/number helpers -/

/-- JS `String.prototype.split('\n')`. -/
def splitLines : List Char → List (List Char)
  | [] => [[]]
  | c :: cs =>
    if c = '\n' then [] :: splitLines cs
    else
      match splitLines cs with
      | [] => [[c]]
      | l :: ls => (c :: l) :: ls

/-- JS `String.prototype.trim()`. -/
def jsTrim (l : List Char) : List Char :=
  ((l.dropWhile isSpaceChar).reverse.dropWhile isSpaceChar).reverse

/-- JS `String.prototype.includes`. -/
def containsSub (pat : List Char) : List Char → Bool
  | [] => pat.isPrefixOf []
  | c :: cs => pat.isPrefixOf (c :: cs) || containsSub pat cs

def hexDigitVal (c : Char) : Nat :=
  if c.isDigit then c.toNat - '0'.toNat
  else if 'a' ≤ c && c ≤ 'f' then c.toNat - 'a'.toNat + 10
  else c.toNat - 'A'.toNat + 10

def digitsVal (base : Nat) (f : Char → Nat) (ds : List Char) : Nat :=
  ds.foldl (fun a c => a * base + f c) 0

/-- JS `parseInt(s)` with an undefined radix: skip leading whitespace,
optional sign, auto-detected `0x` hex prefix, then the maximal digit run;
`none` models `NaN`. -/
def jsParseInt (s : List Char) : Option Int :=
  let s1 := s.dropWhile isSpaceChar
  let sg : Int := match s1 with | '-' :: _ => -1 | _ => 1
  let s2 := match s1 with | '-' :: r => r | '+' :: r => r | _ => s1
  match s2 with
  | '0' :: 'x' :: r =>
    let ds := r.takeWhile isHexChar
    if ds = [] then none else some (sg * (digitsVal 16 hexDigitVal ds : Nat))
  | '0' :: 'X' :: r =>
    let ds := r.takeWhile isHexChar
    if ds = [] then none else some (sg * (digitsVal 16 hexDigitVal ds : Nat))
  | _ =>
    let ds := s2.takeWhile Char.isDigit
    if ds = [] then none
    else some (sg * (digitsVal 10 (fun c => c.toNat - '0'.toNat) ds : Nat))

/-- JS `parseInt(x) || 0`: `NaN` (and `0` itself) collapse to `0`. -/
def jsParseIntOr0 (s : List Char) : Int :=
  match jsParseInt s with
  | some n => n
  | none => 0

/-- A width/height component: a JS number or a JS string. -/
inductive SizeV where
  | num : Int → SizeV
  | str : String → SizeV
deriving DecidableEq, Repr

namespace LVGLCppParser

/-- Source `LVGLCppParser.parseSize`: unwrap `LV_PCT(n)` to `"n%"`, otherwise try
`parseInt`, otherwise keep the literal token text. -/
def parseSize (sizeStr : List Char) : SizeV :=
  match (if containsSub "LV_PCT".data sizeStr then matchLVPct sizeStr
         else none) with
  | some d => .str (String.mk (d ++ ['%']))
  | none =>
    match jsParseInt sizeStr with
    | some n => .num n
    | none => .str (String.mk sizeStr)

end LVGLCppParser

/-! ## Data model of `cpp-parser.ts` -/

/-- JS `Map` as an insertion-ordered association list: `set` on an existing
key replaces the value in place, otherwise appends. -/
def mapSet (m : List (String × α)) (k : String) (v : α) : List (String × α) :=
  if m.any (fun kv => kv.1 = k) then
    m.map (fun kv => if kv.1 = k then (k, v) else kv)
  else m ++ [(k, v)]

def mapGet (m : List (String × α)) (k : String) : Option α :=
  (m.find? (fun kv => kv.1 = k)).map (fun kv => kv.2)

/-- The `LVGLWidget` interface.  JS object references held by
`widgetMap` and by `children` arrays are modeled as indices into the
parser's `widgets` list (the aliasing of mutable objects). -/
structure PWidget where
  type : String
  variableName : String
  parent : Option String
  properties : List (String × String)
  styles : List (String × String)
  posX : Int
  posY : Int
  width : SizeV
  height : SizeV
  children : List Nat
  sourceLineStart : Nat
  sourceLineEnd : Nat
deriving DecidableEq, Repr

/-- Mutable parser state: the `this.widgets` array and the `widgetMap`
(name → index of the live object for that name). -/
structure PState where
  widgets : List PWidget
  wmap : List (String × Nat)
deriving DecidableEq, Repr

def PState.empty : PState := ⟨[], []⟩

/-- In-place mutation of the widget object at index `i`. -/
def modifyIdx : List PWidget → Nat → (PWidget → PWidget) → List PWidget
  | [], _, _ => []
  | w :: ws, 0, f => f w :: ws
  | w :: ws, i + 1, f => w :: modifyIdx ws i f

/-- Apply a mutation to the widget object `widgetMap.get(varName)` refers
to, if any (`if (widget) { ... }`). -/
def applyToVar (s : PState) (v : String) (f : PWidget → PWidget) : PState :=
  match mapGet s.wmap v with
  | some i => { s with widgets := modifyIdx s.widgets i f }
  | none => s

namespace LVGLCppParser

/-- The widget-creation branch of `parseWidgets`: build a fresh
`LVGLWidget`, push it onto `this.widgets` and record it in `widgetMap`. -/
def createStep (line : List Char) (i : Nat) (s : PState) : PState :=
  match matchCreate line with
  | some (varName, widgetType, parentRaw) =>
    let parentName := String.mk (jsTrim parentRaw.data)
    let w : PWidget :=
      { type := "lv_" ++ widgetType
        variableName := varName
        parent := if parentName = "parent" then none else some parentName
        properties := []
        styles := []
        posX := 0
        posY := 0
        width := .str "auto"
        height := .str "auto"
        children := []
        sourceLineStart := i
        sourceLineEnd := i }
    { widgets := s.widgets ++ [w], wmap := mapSet s.wmap varName s.widgets.length }
  | none => s

/-- The `lv_\w+_set_text` branch of `parsePropertySetters`. -/
def setTextStep (line : List Char) (i : Nat) (s : PState) : PState :=
  match matchSetText line with
  | some (v, t) =>
    applyToVar s v (fun w =>
      { w with properties := mapSet w.properties "text" t,
               sourceLineEnd := i })
  | none => s

/-- The `lv_obj_set_size` branch of `parsePropertySetters`. -/
def setSizeStep (line : List Char) (i : Nat) (s : PState) : PState :=
  match matchSetSize line with
  | some (v, wRaw, hRaw) =>
    applyToVar s v (fun w =>
      { w with width := parseSize (jsTrim wRaw),
               height := parseSize (jsTrim hRaw), sourceLineEnd := i })
  | none => s

/-- The `lv_\w+_set_value` branch of `parsePropertySetters`. -/
def setValueStep (line : List Char) (i : Nat) (s : PState) : PState :=
  match matchSetValue line with
  | some (v, x) =>
    applyToVar s v (fun w =>
      { w with properties := mapSet w.properties "value"
                 (String.mk (jsTrim x)),
               sourceLineEnd := i })
  | none => s

/-- The `lv_\w+_set_range` branch of `parsePropertySetters`. -/
def setRangeStep (line : List Char) (i : Nat) (s : PState) : PState :=
  match matchSetRange line with
  | some (v, mn, mx) =>
    applyToVar s v (fun w =>
      { w with
          properties :=
            mapSet (mapSet w.properties "range_min" (String.mk (jsTrim mn)))
              "range_max" (String.mk (jsTrim mx))
          sourceLineEnd := i })
  | none => s

/-- Source `LVGLCppParser.parsePropertySetters`: the four property recognizers
tested in source order against the same line. -/
def parsePropertySetters (line : List Char) (i : Nat) (s : PState) : PState :=
  setRangeStep line i (setValueStep line i (setSizeStep line i
    (setTextStep line i s)))

/-- The `bg_color` branch of `parseStyleSetters`. -/
def bgColorStep (line : List Char) (i : Nat) (s : PState) : PState :=
  match matchBgColor line with
  | some (v, c) =>
    applyToVar s v (fun w =>
      { w with styles := mapSet w.styles "bg_color" c, sourceLineEnd := i })
  | none => s

/-- The `text_color` branch of `parseStyleSetters`. -/
def textColorStep (line : List Char) (i : Nat) (s : PState) : PState :=
  match matchTextColor line with
  | some (v, c) =>
    applyToVar s v (fun w =>
      { w with styles := mapSet w.styles "text_color" c,
               sourceLineEnd := i })
  | none => s

/-- The `text_font` branch of `parseStyleSetters`. -/
def textFontStep (line : List Char) (i : Nat) (s : PState) : PState :=
  match matchTextFont line with
  | some (v, f) =>
    applyToVar s v (fun w =>
      { w with styles := mapSet w.styles "text_font" f, sourceLineEnd := i })
  | none => s

/-- The `radius` branch of `parseStyleSetters`. -/
def radiusStep (line : List Char) (i : Nat) (s : PState) : PState :=
  match matchRadius line with
  | some (v, r) =>
    applyToVar s v (fun w =>
      { w with styles := mapSet w.styles "radius" (String.mk (jsTrim r)),
               sourceLineEnd := i })
  | none => s

/-- The `border_opa` branch of `parseStyleSetters`. -/
def borderOpaStep (line : List Char) (i : Nat) (s : PState) : PState :=
  match matchBorderOpa line with
  | some (v, o) =>
    applyToVar s v (fun w =>
      { w with styles := mapSet w.styles "border_opa"
                 (String.mk (jsTrim o)),
               sourceLineEnd := i })
  | none => s

/-- Source `LVGLCppParser.parseStyleSetters`: the five style recognizers tested
in source order against the same line. -/
def parseStyleSetters (line : List Char) (i : Nat) (s : PState) : PState :=
  borderOpaStep line i (radiusStep line i (textFontStep line i
    (textColorStep line i (bgColorStep line i s))))

/-- The `lv_obj_align` branch of `parseLayoutFunctions`. -/
def alignStep (line : List Char) (i : Nat) (s : PState) : PState :=
  match matchAlign line with
  | some (v, al, x, y) =>
    applyToVar s v (fun w =>
      { w with
          properties := mapSet w.properties "align" (String.mk (jsTrim al))
          posX := jsParseIntOr0 (jsTrim x)
          posY := jsParseIntOr0 (jsTrim y)
          sourceLineEnd := i })
  | none => s

/-- The `lv_obj_center` branch of `parseLayoutFunctions`. -/
def centerStep (line : List Char) (i : Nat) (s : PState) : PState :=
  match matchCenter line with
  | some v =>
    applyToVar s v (fun w =>
      { w with properties := mapSet w.properties "align" "LV_ALIGN_CENTER",
               sourceLineEnd := i })
  | none => s

/-- Source `LVGLCppParser.parseLayoutFunctions`. -/
def parseLayoutFunctions (line : List Char) (i : Nat) (s : PState) : PState :=
  centerStep line i (alignStep line i s)

/-- Processing of one source line inside the `parseWidgets` loop: trim,
then test the creation, property, style and layout recognizers in the
source's order. -/
def processLine (i : Nat) (raw : List Char) (s : PState) : PState :=
  let line := jsTrim raw
  parseLayoutFunctions line i
    (parseStyleSetters line i
      (parsePropertySetters line i (createStep line i s)))

/-- One iteration of the `buildHierarchy` loop, for one entry of
`widgetMap.values()`: append the entry's widget to its parent's
`children` array when the parent name resolves. -/
def linkStep (st : PState) (entry : String × Nat) : PState :=
  match st.widgets.get? entry.2 with
  | some w =>
    match w.parent with
    | some p =>
      if p ≠ "" ∧ p ≠ "parent" then
        match mapGet st.wmap p with
        | some pi =>
          let addChild := fun pw : PWidget =>
            { pw with children := pw.children ++ [entry.2] }
          { st with widgets := modifyIdx st.widgets pi addChild }
        | none => st
      else st
    | none => st
  | none => st

/-- Second pass of `parseWidgets`: `buildHierarchy` walks
`widgetMap.values()` and appends each widget with a resolvable parent to
that parent's `children` array. -/
def buildHierarchy (s : PState) : PState :=
  s.wmap.foldl linkStep s

/-- Source `LVGLCppParser.parseWidgets`: fold the per-line processing over the
enumerated lines, then link the hierarchy. -/
def parseWidgets (lines : List (List Char)) : PState :=
  buildHierarchy
    (lines.enum.foldl (fun s il => processLine il.1 il.2 s) PState.empty)

/-- Source `LVGLCppParser.extractGlobalVariables`. -/
def extractGlobalVariables (lines : List (List Char)) :
    List (String × String) :=
  lines.foldl
    (fun m l =>
      match matchGlobalVar (jsTrim l) with
      | some v => mapSet m v "lv_obj_t"
      | none => m)
    []

/-- The `ParsedLVGLFile` interface (the `functions` field is always the
empty map in the source). -/
structure ParsedLVGLFile where
  fileName : String
  widgets : List PWidget
  globalVariables : List (String × String)
deriving DecidableEq, Repr

/-- Source `LVGLCppParser.parse`. -/
def parse (fileName : String) (content : String) : ParsedLVGLFile :=
  let lines := splitLines content.data
  { fileName := fileName
    widgets := (parseWidgets lines).widgets
    globalVariables := extractGlobalVariables lines }

end LVGLCppParser

/-- Source `parseArduinoLVGLProject`: parse each file, keeping only results with
at least one widget.  (In the source a thrown parse error would also be
skipped by the `try`/`catch`; the embedded `parse` is total.) -/
def parseArduinoLVGLProject (files : List (String × String)) :
    List LVGLCppParser.ParsedLVGLFile :=
  files.foldl
    (fun results f =>
      let parsed := LVGLCppParser.parse f.1 f.2
      if 0 < parsed.widgets.length then results ++ [parsed] else results)
    []

/-! ## The importer conversion of `arduino-importer.ts` -/

/-- The forward widget-kind table of `mapWidgetType`. -/
def mappingFwd : List (String × String) :=
  [("lv_obj", "LVGLContainerWidget"), ("lv_label", "LVGLLabelWidget"),
   ("lv_btn", "LVGLButtonWidget"), ("lv_arc", "LVGLArcWidget"),
   ("lv_slider", "LVGLSliderWidget"), ("lv_bar", "LVGLBarWidget"),
   ("lv_checkbox", "LVGLCheckboxWidget"), ("lv_switch", "LVGLSwitchWidget"),
   ("lv_dropdown", "LVGLDropdownWidget"), ("lv_img", "LVGLImageWidget"),
   ("lv_textarea", "LVGLTextareaWidget"),
   ("lv_keyboard", "LVGLKeyboardWidget"), ("lv_chart", "LVGLChartWidget"),
   ("lv_table", "LVGLTableWidget"), ("lv_spinner", "LVGLSpinnerWidget"),
   ("lv_roller", "LVGLRollerWidget"), ("lv_meter", "LVGLMeterWidget")]

/-- Source `mapWidgetType`: LVGL kind → EEZ Studio widget-type label, defaulting
to the generic container label. -/
def mapWidgetType (lvglType : String) : String :=
  (mapGet mappingFwd lvglType).getD "LVGLContainerWidget"

/-- The fields of the converted EEZ Studio widget object built by
`convertWidget` (children kept apart); absent JS object fields are
`none`. -/
structure EWFields where
  type : String
  identifier : String
  left : Int
  top : Int
  leftUnit : String
  topUnit : String
  width : SizeV
  height : SizeV
  widthUnit : String
  heightUnit : String
  text : Option String
  textType : Option String
  value : Option String
  rangeMin : Option String
  rangeMax : Option String
  styleDef : List (String × String)
  longMode : Option String
  recolor : Option Bool
  checkable : Option Bool
deriving DecidableEq, Repr

/-- A converted EEZ Studio widget: fields plus children. -/
inductive EEZWidget where
  | node : EWFields → List EEZWidget → EEZWidget

def EEZWidget.fields : EEZWidget → EWFields
  | .node f _ => f

def EEZWidget.childList : EEZWidget → List EEZWidget
  | .node _ cs => cs

/-- A parsed widget together with its (already resolved) subtree, the
input shape `convertWidget` recurses over.  The parser stores children as
store indices; a `PTree` is the tree one obtains by following those
references. -/
inductive PTree where
  | node : PWidget → List PTree → PTree

/-- The `%`-unit test of `convertWidget`:
`typeof v === 'string' && v.includes('%')`. -/
def sizeUnitOf (v : SizeV) : String :=
  match v with
  | .str s => if containsSub "%".data s.data then "%" else "px"
  | .num _ => "px"

/-- The per-node part of `convertWidget` (everything except the recursive
children loop). -/
def convFields (w : PWidget) : EWFields :=
  let eezWidgetType := mapWidgetType w.type
  let luInit := "px"
  let tuInit := "px"
  let lu :=
    match mapGet w.properties "align" with
    | some a =>
      if containsSub "CENTER".data a.data then "center"
      else if containsSub "LEFT".data a.data then "left"
      else if containsSub "RIGHT".data a.data then "right"
      else luInit
    | none => luInit
  let tu :=
    match mapGet w.properties "align" with
    | some a =>
      if containsSub "TOP".data a.data then "top"
      else if containsSub "BOTTOM".data a.data then "bottom"
      else if containsSub "CENTER".data a.data then "center"
      else tuInit
    | none => tuInit
  let text := mapGet w.properties "text"
  let d : List (String × String) := []
  let d :=
    match mapGet w.styles "bg_color" with
    | some c => d ++ [("bg_color", c), ("bg_opa", "LV_OPA_COVER")]
    | none => d
  let d :=
    match mapGet w.styles "text_color" with
    | some c => d ++ [("text_color", c)]
    | none => d
  let d :=
    match mapGet w.styles "text_font" with
    | some f => d ++ [("text_font", "&" ++ f)]
    | none => d
  let d :=
    match mapGet w.styles "radius" with
    | some r => d ++ [("radius", r)]
    | none => d
  let d :=
    match mapGet w.styles "border_opa" with
    | some o => d ++ [("border_opa", o)]
    | none => d
  { type := eezWidgetType
    identifier := w.variableName
    left := w.posX
    top := w.posY
    leftUnit := lu
    topUnit := tu
    width := w.width
    height := w.height
    widthUnit := sizeUnitOf w.width
    heightUnit := sizeUnitOf w.height
    text := text
    textType := if text.isSome then some "literal" else none
    value := mapGet w.properties "value"
    rangeMin := mapGet w.properties "range_min"
    rangeMax := mapGet w.properties "range_max"
    styleDef := d
    longMode := if eezWidgetType = "LVGLLabelWidget" then some "WRAP" else none
    recolor := if eezWidgetType = "LVGLLabelWidget" then some false else none
    checkable :=
      if eezWidgetType = "LVGLButtonWidget" then some false else none }

mutual

/-- Source `convertWidget`: node fields via `convFields`, children converted
recursively in document order. -/
def convertWidget : PTree → EEZWidget
  | .node w cs => EEZWidget.node (convFields w) (convertForest cs)

/-- The `for (const child of widget.children)` loop of `convertWidget`. -/
def convertForest : List PTree → List EEZWidget
  | [] => []
  | t :: ts => convertWidget t :: convertForest ts

end

/-- The root-widget selection of `createProjectFromArduino`
(`!widget.parent || widget.parent === "parent"`): only these widgets of a
parsed file are converted into the page. -/
def pageRootWidgets (ws : List PWidget) : List PWidget :=
  ws.filter
    (fun w =>
      match w.parent with
      | none => true
      | some p => p = "" || p = "parent")

/-! ## The code generator of `arduino-exporter.ts` -/

/-- The reverse table of `LVGLCodeGenerator.getWidgetTypeFromEEZ`. -/
def mappingRev : List (String × String) :=
  [("LVGLContainerWidget", "obj"), ("LVGLLabelWidget", "label"),
   ("LVGLButtonWidget", "btn"), ("LVGLArcWidget", "arc"),
   ("LVGLSliderWidget", "slider"), ("LVGLBarWidget", "bar"),
   ("LVGLCheckboxWidget", "checkbox"), ("LVGLSwitchWidget", "switch"),
   ("LVGLDropdownWidget", "dropdown"), ("LVGLImageWidget", "img"),
   ("LVGLTextareaWidget", "textarea"), ("LVGLKeyboardWidget", "keyboard"),
   ("LVGLChartWidget", "chart"), ("LVGLTableWidget", "table"),
   ("LVGLSpinnerWidget", "spinner"), ("LVGLRollerWidget", "roller"),
   ("LVGLMeterWidget", "meter")]

/-- Source `getWidgetTypeFromEEZ`, defaulting to the generic `obj` kind. -/
def getWidgetTypeFromEEZ (eezType : String) : String :=
  (mapGet mappingRev eezType).getD "obj"

/-- JS `String(x)` on a width/height component. -/
def SizeV.toStr : SizeV → String
  | .num n => toString n
  | .str s => s

/-- JS truthiness of a width/height component (`0` and `""` are falsy). -/
def SizeV.truthy : SizeV → Bool
  | .num n => n ≠ 0
  | .str s => s ≠ ""

/-- Source `LVGLCodeGenerator.convertSize`: re-wrap `%`-unit sizes in the
percentage macro. -/
def convertSize (size : SizeV) (unit : String) : String :=
  if unit = "%" then "LV_PCT(" ++ size.toStr ++ ")" else size.toStr

/-- Source `LVGLCodeGenerator.getAlignment`. -/
def getAlignment (leftUnit topUnit : String) : String :=
  (mapGet
    [("center-center", "LV_ALIGN_CENTER"), ("left-top", "LV_ALIGN_TOP_LEFT"),
     ("center-top", "LV_ALIGN_TOP_MID"), ("right-top", "LV_ALIGN_TOP_RIGHT"),
     ("left-center", "LV_ALIGN_LEFT_MID"),
     ("right-center", "LV_ALIGN_RIGHT_MID"),
     ("left-bottom", "LV_ALIGN_BOTTOM_LEFT"),
     ("center-bottom", "LV_ALIGN_BOTTOM_MID"),
     ("right-bottom", "LV_ALIGN_BOTTOM_RIGHT")]
    (leftUnit ++ "-" ++ topUnit)).getD "LV_ALIGN_TOP_LEFT"

/-- JS truthiness of the optional `text` field. -/
def textTruthy : Option String → Bool
  | some t => t ≠ ""
  | none => false

/-- The statements `generateWidget` appends for one widget, before the
recursive children loop runs with this widget's variable as parent.
`rnd` supplies the `Math.random()` fallback identifier: `rnd ctr` is the
random suffix consumed by the `ctr`-th draw.  Indentation is the empty
string throughout, since `generateWidget` never changes the indent
level. -/
def genLinesNode (rnd : Nat → String) (f : EWFields)
    (childGen : String → Nat → List String × Nat) :
    String → Nat → List String × Nat :=
  fun parentVar ctr =>
    let varName := if f.identifier ≠ "" then f.identifier
      else "obj_" ++ rnd ctr
    let ctr1 := if f.identifier ≠ "" then ctr else ctr + 1
    let widgetType := getWidgetTypeFromEEZ f.type
    let createL :=
      [varName ++ " = lv_" ++ widgetType ++ "_create(" ++ parentVar ++ ");"]
    let sizeL :=
      if f.width.truthy && f.height.truthy then
        ["lv_obj_set_size(" ++ varName ++ ", " ++
          convertSize f.width f.widthUnit ++ ", " ++
          convertSize f.height f.heightUnit ++ ");"]
      else []
    let posL :=
      if f.leftUnit ≠ "" && f.leftUnit ≠ "px" then
        let al := getAlignment f.leftUnit f.topUnit
        if al = "LV_ALIGN_CENTER" && f.left = 0 && f.top = 0 then
          ["lv_obj_center(" ++ varName ++ ");"]
        else
          ["lv_obj_align(" ++ varName ++ ", " ++ al ++ ", " ++
            toString f.left ++ ", " ++ toString f.top ++ ");"]
      else
        ["lv_obj_set_pos(" ++ varName ++ ", " ++ toString f.left ++ ", " ++
          toString f.top ++ ");"]
    let textL :=
      match f.text with
      | some t =>
        if f.type = "LVGLLabelWidget" && t ≠ "" then
          ["lv_label_set_text(" ++ varName ++ ", \"" ++ t ++ "\");"]
        else []
      | none => []
    let rangeL :=
      match f.rangeMin, f.rangeMax with
      | some mn, some mx =>
        ["lv_" ++ widgetType ++ "_set_range(" ++ varName ++ ", " ++ mn ++
          ", " ++ mx ++ ");"]
      | _, _ => []
    let valueL :=
      match f.value with
      | some v =>
        ["lv_" ++ widgetType ++ "_set_value(" ++ varName ++ ", " ++ v ++
          ");"]
      | none => []
    let styleL :=
      f.styleDef.map
        (fun kv =>
          "lv_obj_set_style_" ++ kv.1 ++ "(" ++ varName ++ ", " ++ kv.2 ++
            ", 0);")
    let (childL, ctr2) := childGen varName ctr1
    (createL ++ sizeL ++ posL ++ textL ++ rangeL ++ valueL ++ styleL ++
      [""] ++ childL, ctr2)

mutual

/-- Source `LVGLCodeGenerator.generateWidget` as the list of lines it appends to
the code buffer (children in document order, each generated with the
current widget's variable name as parent reference). -/
def genLines (rnd : Nat → String) : EEZWidget → String → Nat →
    List String × Nat
  | .node f cs => fun pv ctr => genLinesNode rnd f (genLinesList rnd cs) pv ctr

/-- The `for (const child of widget.children)` loop of `generateWidget`. -/
def genLinesList (rnd : Nat → String) : List EEZWidget → String → Nat →
    List String × Nat
  | [] => fun _ ctr => ([], ctr)
  | c :: cs => fun pv ctr =>
    let r1 := genLines rnd c pv ctr
    let r2 := genLinesList rnd cs pv r1.2
    (r1.1 ++ r2.1, r2.2)

end

/-- The string `generateWidget` returns for a single widget on a fresh
generator: the buffer joined with newlines. -/
def generateWidget (rnd : Nat → String) (w : EEZWidget)
    (parentVar : String) : String :=
  String.intercalate "\n" (genLines rnd w parentVar 0).1

/-! ## Helper lemmas -/

theorem isSome_false {α : Type} {o : Option α} (h : o.isSome = false) :
    o = none := by
  cases o <;> simp_all

/-- Does any of the twelve line recognizers of `parseWidgets` (creation,
property, style, layout) match the line? -/
def anyRecognizer (line : List Char) : Bool :=
  (matchCreate line).isSome || (matchSetText line).isSome ||
  (matchSetSize line).isSome || (matchSetValue line).isSome ||
  (matchSetRange line).isSome || (matchBgColor line).isSome ||
  (matchTextColor line).isSome || (matchTextFont line).isSome ||
  (matchRadius line).isSome || (matchBorderOpa line).isSome ||
  (matchAlign line).isSome || (matchCenter line).isSome

theorem foldl_keep_eq_filter
    (g : String × String → LVGLCppParser.ParsedLVGLFile)
    (files : List (String × String))
    (acc : List LVGLCppParser.ParsedLVGLFile) :
    files.foldl
      (fun results f =>
        if 0 < (g f).widgets.length then results ++ [g f] else results)
      acc =
    acc ++ (files.map g).filter (fun p => 0 < p.widgets.length) := by
  induction files generalizing acc with
  | nil => simp
  | cons f fs ih =>
    simp only [List.foldl_cons, List.map_cons, List.filter_cons]
    by_cases h : 0 < (g f).widgets.length
    · simp [h, ih]
    · simp [h, ih]

/-! ## Claim theorems -/

/-- The short widget kinds of the closed catalogue, in table order. -/
def kindCatalogue : List String :=
  ["obj", "label", "btn", "arc", "slider", "bar", "checkbox", "switch",
   "dropdown", "img", "textarea", "keyboard", "chart", "table", "spinner",
   "roller", "meter"]

/-- C6: the two widget-kind tables are mutually consistent: for every
kind `lv_<k>` of the closed catalogue, mapping forward to the EEZ Studio
widget-type label and back through the reverse table recovers `<k>` (the
kind the generator re-prefixes with `lv_`); an unknown label maps to the
generic `obj` kind and an unknown kind to the generic container label. -/
theorem mapping_tables_consistent :
    (∀ k ∈ kindCatalogue,
      getWidgetTypeFromEEZ (mapWidgetType ("lv_" ++ k)) = k) ∧
    (∀ s : String, (∀ kv ∈ mappingFwd, kv.1 ≠ s) →
      mapWidgetType s = "LVGLContainerWidget") ∧
    (∀ t : String, (∀ kv ∈ mappingRev, kv.1 ≠ t) →
      getWidgetTypeFromEEZ t = "obj") := by
  refine ⟨by decide, ?_, ?_⟩
  · intro s h
    have hf : List.find? (fun kv => kv.1 = s) mappingFwd = none := by
      rw [List.find?_eq_none]
      intro kv hkv
      simpa using h kv hkv
    simp [mapWidgetType, mapGet, hf]
  · intro t h
    have hf : List.find? (fun kv => kv.1 = t) mappingRev = none := by
      rw [List.find?_eq_none]
      intro kv hkv
      simpa using h kv hkv
    simp [getWidgetTypeFromEEZ, mapGet, hf]

theorem mapping_tables_consistent_witness :
    getWidgetTypeFromEEZ (mapWidgetType ("lv_" ++ "label")) = "label" ∧
    mapWidgetType "lv_bogus" = "LVGLContainerWidget" ∧
    getWidgetTypeFromEEZ "SomethingElse" = "obj" :=
  ⟨mapping_tables_consistent.1 "label" (by decide),
   mapping_tables_consistent.2.1 "lv_bogus" (by decide),
   mapping_tables_consistent.2.2 "SomethingElse" (by decide)⟩

/-- C7: the batch entry point returns exactly the parsed files that yield
at least one widget, in input order; a file yielding zero widgets is
skipped without failing the batch or affecting the other files' results
(each file is parsed independently; the embedded `parse` is total, so the
`catch` branch of the source is unreachable here). -/
theorem batch_parse_keeps_nonempty (files : List (String × String)) :
    parseArduinoLVGLProject files =
      (files.map (fun f => LVGLCppParser.parse f.1 f.2)).filter
        (fun p => 0 < p.widgets.length) := by
  have h := foldl_keep_eq_filter
    (fun f => LVGLCppParser.parse f.1 f.2) files []
  simpa [parseArduinoLVGLProject] using h

/-- C8: a line matching no recognizer leaves the entire parser state
unchanged: no widget is created and no field (properties, styles, size,
position, `sourceLineEnd`, …) of any existing widget is modified.  Such
lines are silently skipped; `parse` is total, so they are never reported
as errors. -/
theorem unrecognized_line_is_noop (s : PState) (i : Nat) (raw : List Char)
    (h : anyRecognizer (jsTrim raw) = false) :
    LVGLCppParser.processLine i raw s = s := by
  simp only [anyRecognizer, Bool.or_eq_false_iff] at h
  obtain ⟨⟨⟨⟨⟨⟨⟨⟨⟨⟨⟨h1, h2⟩, h3⟩, h4⟩, h5⟩, h6⟩, h7⟩, h8⟩, h9⟩, h10⟩,
    h11⟩, h12⟩ := h
  simp only [LVGLCppParser.processLine, LVGLCppParser.createStep,
    LVGLCppParser.parsePropertySetters, LVGLCppParser.parseStyleSetters,
    LVGLCppParser.parseLayoutFunctions, LVGLCppParser.setTextStep,
    LVGLCppParser.setSizeStep, LVGLCppParser.setValueStep,
    LVGLCppParser.setRangeStep, LVGLCppParser.bgColorStep,
    LVGLCppParser.textColorStep, LVGLCppParser.textFontStep,
    LVGLCppParser.radiusStep, LVGLCppParser.borderOpaStep,
    LVGLCppParser.alignStep, LVGLCppParser.centerStep,
    isSome_false h1, isSome_false h2, isSome_false h3, isSome_false h4,
    isSome_false h5, isSome_false h6, isSome_false h7, isSome_false h8,
    isSome_false h9, isSome_false h10, isSome_false h11, isSome_false h12]

theorem unrecognized_line_is_noop_witness :
    anyRecognizer (jsTrim "    int temperature = 25;".data) = false ∧
    LVGLCppParser.processLine 7 "    int temperature = 25;".data
      { widgets := [{ type := "lv_btn", variableName := "tare_btn",
                      parent := none, properties := [], styles := [],
                      posX := 0, posY := 0, width := .str "auto",
                      height := .str "auto", children := [],
                      sourceLineStart := 2, sourceLineEnd := 2 }],
        wmap := [("tare_btn", 0)] } =
      { widgets := [{ type := "lv_btn", variableName := "tare_btn",
                      parent := none, properties := [], styles := [],
                      posX := 0, posY := 0, width := .str "auto",
                      height := .str "auto", children := [],
                      sourceLineStart := 2, sourceLineEnd := 2 }],
        wmap := [("tare_btn", 0)] } :=
  ⟨by decide, unrecognized_line_is_noop _ 7 _ (by decide)⟩

/-! ## Machinery for the source-line invariants (C10) -/

namespace LVGLCppParser

/-- Source `parseWidgets`' loop unrolled with an explicit starting line index:
processing the lines `ls` whose indices start at `off`. -/
def processFrom : Nat → List (List Char) → PState → PState
  | _, [], s => s
  | off, l :: ls, s => processFrom (off + 1) ls (processLine off l s)

theorem enumFrom_foldl_processLine (ls : List (List Char)) :
    ∀ (off : Nat) (s : PState),
      (List.enumFrom off ls).foldl (fun s il => processLine il.1 il.2 s) s =
        processFrom off ls s := by
  induction ls with
  | nil => intro off s; rfl
  | cons l ls ih =>
    intro off s
    simp only [List.enumFrom, List.foldl_cons, processFrom]
    exact ih (off + 1) (processLine off l s)

theorem parseWidgets_eq_processFrom (lines : List (List Char)) :
    parseWidgets lines = buildHierarchy (processFrom 0 lines PState.empty) := by
  unfold parseWidgets
  rw [List.enum, enumFrom_foldl_processLine]

end LVGLCppParser

theorem modifyIdx_get? (ws : List PWidget) (i j : Nat)
    (f : PWidget → PWidget) :
    (modifyIdx ws i f).get? j =
      if j = i then (ws.get? j).map f else ws.get? j := by
  induction ws generalizing i j with
  | nil => cases i <;> cases j <;> simp [modifyIdx]
  | cons w ws ih =>
    cases i with
    | zero => cases j <;> simp [modifyIdx]
    | succ i =>
      cases j with
      | zero => simp [modifyIdx]
      | succ j => simpa [modifyIdx] using ih i j

theorem modifyIdx_map {β : Type} (ws : List PWidget) (i : Nat)
    (f : PWidget → PWidget) (g : PWidget → β) (h : ∀ w, g (f w) = g w) :
    (modifyIdx ws i f).map g = ws.map g := by
  induction ws generalizing i with
  | nil => cases i <;> simp [modifyIdx]
  | cons w ws ih =>
    cases i with
    | zero => simp [modifyIdx, h]
    | succ i => simp [modifyIdx, ih]

/-- One processing step at line `i` relates states as follows: every
pre-existing widget keeps its index and its `sourceLineStart`, and its
`sourceLineEnd` is either untouched or set to `i`; any widget of the new
state is either such an update of an old one or a widget freshly created
at line `i`. -/
def StepOk (i : Nat) (s s' : PState) : Prop :=
  (∀ j w, s.widgets.get? j = some w →
    ∃ w', s'.widgets.get? j = some w' ∧
      w'.sourceLineStart = w.sourceLineStart ∧
      (w'.sourceLineEnd = w.sourceLineEnd ∨ w'.sourceLineEnd = i)) ∧
  (∀ w' ∈ s'.widgets,
    (∃ w ∈ s.widgets,
      w'.sourceLineStart = w.sourceLineStart ∧
      (w'.sourceLineEnd = w.sourceLineEnd ∨ w'.sourceLineEnd = i)) ∨
    (w'.sourceLineStart = i ∧ w'.sourceLineEnd = i))

theorem StepOk.refl (i : Nat) (s : PState) : StepOk i s s := by
  constructor
  · intro j w h
    exact ⟨w, h, rfl, Or.inl rfl⟩
  · intro w' hw'
    exact Or.inl ⟨w', hw', rfl, Or.inl rfl⟩

theorem StepOk.trans {i : Nat} {s s' s'' : PState}
    (h1 : StepOk i s s') (h2 : StepOk i s' s'') : StepOk i s s'' := by
  constructor
  · intro j w hj
    obtain ⟨w1, hj1, hst1, hen1⟩ := h1.1 j w hj
    obtain ⟨w2, hj2, hst2, hen2⟩ := h2.1 j w1 hj1
    refine ⟨w2, hj2, hst2.trans hst1, ?_⟩
    rcases hen2 with h | h
    · rcases hen1 with h' | h'
      · exact Or.inl (h.trans h')
      · exact Or.inr (h.trans h')
    · exact Or.inr h
  · intro w'' hw''
    rcases h2.2 w'' hw'' with ⟨w1, hw1, hst, hen⟩ | hnew
    · rcases h1.2 w1 hw1 with ⟨w0, hw0, hst0, hen0⟩ | hnew0
      · refine Or.inl ⟨w0, hw0, hst.trans hst0, ?_⟩
        rcases hen with h | h
        · rcases hen0 with h' | h'
          · exact Or.inl (h.trans h')
          · exact Or.inr (h.trans h')
        · exact Or.inr h
      · refine Or.inr ⟨hst.trans hnew0.1, ?_⟩
        rcases hen with h | h
        · exact h.trans hnew0.2
        · exact h
    · exact Or.inr hnew

theorem applyToVar_stepOk (i : Nat) (s : PState) (v : String)
    (f : PWidget → PWidget)
    (hf : ∀ w, (f w).sourceLineStart = w.sourceLineStart ∧
      (f w).sourceLineEnd = i) :
    StepOk i s (applyToVar s v f) := by
  unfold applyToVar
  cases hm : mapGet s.wmap v with
  | none => exact StepOk.refl i s
  | some idx =>
    constructor
    · intro j w hj
      rw [modifyIdx_get?]
      by_cases hji : j = idx
      · subst hji
        rw [hj]
        exact ⟨f w, by simp, (hf w).1, Or.inr (hf w).2⟩
      · rw [if_neg hji]
        exact ⟨w, hj, rfl, Or.inl rfl⟩
    · intro w' hw'
      obtain ⟨j, hj⟩ := List.mem_iff_get?.mp hw'
      rw [modifyIdx_get?] at hj
      by_cases hji : j = idx
      · rw [if_pos hji] at hj
        cases hw : s.widgets.get? j with
        | none => rw [hw] at hj; exact absurd hj (by simp)
        | some w =>
          rw [hw] at hj
          simp only [Option.map_some'] at hj
          cases hj
          exact Or.inl ⟨w, List.get?_mem hw, (hf w).1, Or.inr (hf w).2⟩
      · rw [if_neg hji] at hj
        exact Or.inl ⟨w', List.get?_mem hj, rfl, Or.inl rfl⟩

namespace LVGLCppParser

theorem createStep_stepOk (line : List Char) (i : Nat) (s : PState) :
    StepOk i s (createStep line i s) := by
  unfold createStep
  cases hm : matchCreate line with
  | none => exact StepOk.refl i s
  | some vka =>
    obtain ⟨v, k, a⟩ := vka
    constructor
    · intro j w hj
      have hlt : j < s.widgets.length := by
        rcases List.get?_eq_some.mp hj with ⟨h, _⟩
        exact h
      refine ⟨w, ?_, rfl, Or.inl rfl⟩
      rw [List.get?_append hlt]
      exact hj
    · intro w' hw'
      simp only [List.mem_append, List.mem_singleton] at hw'
      rcases hw' with h | h
      · exact Or.inl ⟨w', h, rfl, Or.inl rfl⟩
      · subst h
        exact Or.inr ⟨rfl, rfl⟩

theorem setTextStep_stepOk (line : List Char) (i : Nat) (s : PState) :
    StepOk i s (setTextStep line i s) := by
  unfold setTextStep
  cases hm : matchSetText line with
  | none => exact StepOk.refl i s
  | some vt => exact applyToVar_stepOk i s vt.1 _ (fun w => ⟨rfl, rfl⟩)

theorem setSizeStep_stepOk (line : List Char) (i : Nat) (s : PState) :
    StepOk i s (setSizeStep line i s) := by
  unfold setSizeStep
  cases hm : matchSetSize line with
  | none => exact StepOk.refl i s
  | some vwh => exact applyToVar_stepOk i s vwh.1 _ (fun w => ⟨rfl, rfl⟩)

theorem setValueStep_stepOk (line : List Char) (i : Nat) (s : PState) :
    StepOk i s (setValueStep line i s) := by
  unfold setValueStep
  cases hm : matchSetValue line with
  | none => exact StepOk.refl i s
  | some vx => exact applyToVar_stepOk i s vx.1 _ (fun w => ⟨rfl, rfl⟩)

theorem setRangeStep_stepOk (line : List Char) (i : Nat) (s : PState) :
    StepOk i s (setRangeStep line i s) := by
  unfold setRangeStep
  cases hm : matchSetRange line with
  | none => exact StepOk.refl i s
  | some vmm => exact applyToVar_stepOk i s vmm.1 _ (fun w => ⟨rfl, rfl⟩)

theorem bgColorStep_stepOk (line : List Char) (i : Nat) (s : PState) :
    StepOk i s (bgColorStep line i s) := by
  unfold bgColorStep
  cases hm : matchBgColor line with
  | none => exact StepOk.refl i s
  | some vc => exact applyToVar_stepOk i s vc.1 _ (fun w => ⟨rfl, rfl⟩)

theorem textColorStep_stepOk (line : List Char) (i : Nat) (s : PState) :
    StepOk i s (textColorStep line i s) := by
  unfold textColorStep
  cases hm : matchTextColor line with
  | none => exact StepOk.refl i s
  | some vc => exact applyToVar_stepOk i s vc.1 _ (fun w => ⟨rfl, rfl⟩)

theorem textFontStep_stepOk (line : List Char) (i : Nat) (s : PState) :
    StepOk i s (textFontStep line i s) := by
  unfold textFontStep
  cases hm : matchTextFont line with
  | none => exact StepOk.refl i s
  | some vf => exact applyToVar_stepOk i s vf.1 _ (fun w => ⟨rfl, rfl⟩)

theorem radiusStep_stepOk (line : List Char) (i : Nat) (s : PState) :
    StepOk i s (radiusStep line i s) := by
  unfold radiusStep
  cases hm : matchRadius line with
  | none => exact StepOk.refl i s
  | some vr => exact applyToVar_stepOk i s vr.1 _ (fun w => ⟨rfl, rfl⟩)

theorem borderOpaStep_stepOk (line : List Char) (i : Nat) (s : PState) :
    StepOk i s (borderOpaStep line i s) := by
  unfold borderOpaStep
  cases hm : matchBorderOpa line with
  | none => exact StepOk.refl i s
  | some vo => exact applyToVar_stepOk i s vo.1 _ (fun w => ⟨rfl, rfl⟩)

theorem alignStep_stepOk (line : List Char) (i : Nat) (s : PState) :
    StepOk i s (alignStep line i s) := by
  unfold alignStep
  cases hm : matchAlign line with
  | none => exact StepOk.refl i s
  | some vaxy => exact applyToVar_stepOk i s vaxy.1 _ (fun w => ⟨rfl, rfl⟩)

theorem centerStep_stepOk (line : List Char) (i : Nat) (s : PState) :
    StepOk i s (centerStep line i s) := by
  unfold centerStep
  cases hm : matchCenter line with
  | none => exact StepOk.refl i s
  | some v => exact applyToVar_stepOk i s v _ (fun w => ⟨rfl, rfl⟩)

theorem processLine_stepOk (i : Nat) (raw : List Char) (s : PState) :
    StepOk i s (processLine i raw s) := by
  unfold processLine parsePropertySetters parseStyleSetters
    parseLayoutFunctions
  exact StepOk.trans (createStep_stepOk _ i s)
    (StepOk.trans (setTextStep_stepOk _ i _)
      (StepOk.trans (setSizeStep_stepOk _ i _)
        (StepOk.trans (setValueStep_stepOk _ i _)
          (StepOk.trans (setRangeStep_stepOk _ i _)
            (StepOk.trans (bgColorStep_stepOk _ i _)
              (StepOk.trans (textColorStep_stepOk _ i _)
                (StepOk.trans (textFontStep_stepOk _ i _)
                  (StepOk.trans (radiusStep_stepOk _ i _)
                    (StepOk.trans (borderOpaStep_stepOk _ i _)
                      (StepOk.trans (alignStep_stepOk _ i _)
                        (centerStep_stepOk _ i _)))))))))))

end LVGLCppParser

/-- The invariant carried across the `parseWidgets` line loop: every
widget's line range is well-formed and bounded by the lines seen so
far. -/
def LineInv (n : Nat) (s : PState) : Prop :=
  ∀ w ∈ s.widgets,
    w.sourceLineStart ≤ w.sourceLineEnd ∧ w.sourceLineEnd ≤ n

theorem LineInv.mono {n m : Nat} {s : PState} (h : n ≤ m)
    (hs : LineInv n s) : LineInv m s := by
  intro w hw
  exact ⟨(hs w hw).1, le_trans (hs w hw).2 h⟩

theorem LineInv.step {i : Nat} {s s' : PState} (hs : LineInv i s)
    (h : StepOk i s s') : LineInv i s' := by
  intro w' hw'
  rcases h.2 w' hw' with ⟨w, hw, hst, hen⟩ | hnew
  · rcases hen with he | he
    · exact ⟨by rw [hst, he]; exact (hs w hw).1, by rw [he]; exact (hs w hw).2⟩
    · exact ⟨by rw [hst, he]; exact le_trans (hs w hw).1 (le_trans (hs w hw).2 (le_refl i)), by rw [he]⟩
  · exact ⟨by rw [hnew.1, hnew.2], by rw [hnew.2]⟩

namespace LVGLCppParser

theorem processFrom_inv (ls : List (List Char)) :
    ∀ (off : Nat) (s : PState), LineInv off s →
      LineInv (off + ls.length) (processFrom off ls s) := by
  induction ls with
  | nil => intro off s h; simpa [processFrom] using h
  | cons l ls ih =>
    intro off s h
    have h1 : LineInv off (processLine off l s) :=
      h.step (processLine_stepOk off l s)
    have h2 : LineInv (off + 1) (processLine off l s) :=
      h1.mono (Nat.le_succ off)
    have h3 := ih (off + 1) _ h2
    simpa [processFrom, Nat.add_comm, Nat.add_assoc, Nat.add_left_comm]
      using h3

theorem processFrom_end_mono (ls : List (List Char)) :
    ∀ (off : Nat) (s : PState), LineInv off s →
      ∀ (j : Nat) (w : PWidget), s.widgets.get? j = some w →
        ∃ w', (processFrom off ls s).widgets.get? j = some w' ∧
          w.sourceLineEnd ≤ w'.sourceLineEnd := by
  induction ls with
  | nil => intro off s _ j w hj; exact ⟨w, hj, le_refl _⟩
  | cons l ls ih =>
    intro off s hinv j w hj
    obtain ⟨w1, hj1, _, hen1⟩ :=
      (processLine_stepOk off l s).1 j w hj
    have hw1 : w.sourceLineEnd ≤ w1.sourceLineEnd := by
      rcases hen1 with h | h
      · rw [h]
      · rw [h]; exact (hinv w (List.get?_mem hj)).2
    have hinv1 : LineInv (off + 1) (processLine off l s) :=
      (hinv.step (processLine_stepOk off l s)).mono (Nat.le_succ off)
    obtain ⟨w', hj', hw'⟩ := ih (off + 1) _ hinv1 j w1 hj1
    exact ⟨w', hj', le_trans hw1 hw'⟩

end LVGLCppParser

/-- Forget a widget's `children` array (the only field `buildHierarchy`
mutates). -/
def stripChildren (w : PWidget) : PWidget := { w with children := [] }

theorem linkStep_map {β : Type} (g : PWidget → β)
    (hg : ∀ (w : PWidget) (e : Nat),
      g { w with children := w.children ++ [e] } = g w)
    (st : PState) (entry : String × Nat) :
    (LVGLCppParser.linkStep st entry).widgets.map g =
      st.widgets.map g ∧
    (LVGLCppParser.linkStep st entry).wmap = st.wmap := by
  unfold LVGLCppParser.linkStep
  repeat' split
  all_goals
    first
      | exact ⟨rfl, rfl⟩
      | exact ⟨modifyIdx_map _ _ _ _ (fun w => hg w _), rfl⟩

theorem buildHierarchy_map {β : Type} (g : PWidget → β)
    (hg : ∀ (w : PWidget) (e : Nat),
      g { w with children := w.children ++ [e] } = g w) (s : PState) :
    (LVGLCppParser.buildHierarchy s).widgets.map g = s.widgets.map g := by
  unfold LVGLCppParser.buildHierarchy
  generalize s.wmap = entries
  induction entries generalizing s with
  | nil => rfl
  | cons e es ih =>
    simp only [List.foldl_cons]
    rw [ih (LVGLCppParser.linkStep s e), (linkStep_map g hg s e).1]

theorem buildHierarchy_strip (s : PState) :
    (LVGLCppParser.buildHierarchy s).widgets.map stripChildren =
      s.widgets.map stripChildren :=
  buildHierarchy_map stripChildren (fun _ _ => rfl) s

/-- The subject identifiers captured by whichever of the eleven
property/style/layout recognizers match the line. -/
def setterVars (line : List Char) : List String :=
  (match matchSetText line with | some (v, _) => [v] | none => []) ++
  (match matchSetSize line with | some (v, _, _) => [v] | none => []) ++
  (match matchSetValue line with | some (v, _) => [v] | none => []) ++
  (match matchSetRange line with | some (v, _, _) => [v] | none => []) ++
  (match matchBgColor line with | some (v, _) => [v] | none => []) ++
  (match matchTextColor line with | some (v, _) => [v] | none => []) ++
  (match matchTextFont line with | some (v, _) => [v] | none => []) ++
  (match matchRadius line with | some (v, _) => [v] | none => []) ++
  (match matchBorderOpa line with | some (v, _) => [v] | none => []) ++
  (match matchAlign line with | some (v, _, _, _) => [v] | none => []) ++
  (match matchCenter line with | some v => [v] | none => [])

theorem applyToVar_none (s : PState) (v : String) (f : PWidget → PWidget)
    (h : mapGet s.wmap v = none) : applyToVar s v f = s := by
  simp [applyToVar, h]

namespace LVGLCppParser

theorem setTextStep_noop (line : List Char) (i : Nat) (s : PState)
    (h : ∀ v ∈ setterVars line, mapGet s.wmap v = none) :
    setTextStep line i s = s := by
  unfold setTextStep
  cases hm : matchSetText line with
  | none => rfl
  | some vt =>
    obtain ⟨v, t⟩ := vt
    exact applyToVar_none s v _ (h v (by simp [setterVars, hm]))

theorem setSizeStep_noop (line : List Char) (i : Nat) (s : PState)
    (h : ∀ v ∈ setterVars line, mapGet s.wmap v = none) :
    setSizeStep line i s = s := by
  unfold setSizeStep
  cases hm : matchSetSize line with
  | none => rfl
  | some vwh =>
    obtain ⟨v, wr, hr⟩ := vwh
    exact applyToVar_none s v _ (h v (by simp [setterVars, hm]))

theorem setValueStep_noop (line : List Char) (i : Nat) (s : PState)
    (h : ∀ v ∈ setterVars line, mapGet s.wmap v = none) :
    setValueStep line i s = s := by
  unfold setValueStep
  cases hm : matchSetValue line with
  | none => rfl
  | some vx =>
    obtain ⟨v, x⟩ := vx
    exact applyToVar_none s v _ (h v (by simp [setterVars, hm]))

theorem setRangeStep_noop (line : List Char) (i : Nat) (s : PState)
    (h : ∀ v ∈ setterVars line, mapGet s.wmap v = none) :
    setRangeStep line i s = s := by
  unfold setRangeStep
  cases hm : matchSetRange line with
  | none => rfl
  | some vmm =>
    obtain ⟨v, mn, mx⟩ := vmm
    exact applyToVar_none s v _ (h v (by simp [setterVars, hm]))

theorem bgColorStep_noop (line : List Char) (i : Nat) (s : PState)
    (h : ∀ v ∈ setterVars line, mapGet s.wmap v = none) :
    bgColorStep line i s = s := by
  unfold bgColorStep
  cases hm : matchBgColor line with
  | none => rfl
  | some vc =>
    obtain ⟨v, c⟩ := vc
    exact applyToVar_none s v _ (h v (by simp [setterVars, hm]))

theorem textColorStep_noop (line : List Char) (i : Nat) (s : PState)
    (h : ∀ v ∈ setterVars line, mapGet s.wmap v = none) :
    textColorStep line i s = s := by
  unfold textColorStep
  cases hm : matchTextColor line with
  | none => rfl
  | some vc =>
    obtain ⟨v, c⟩ := vc
    exact applyToVar_none s v _ (h v (by simp [setterVars, hm]))

theorem textFontStep_noop (line : List Char) (i : Nat) (s : PState)
    (h : ∀ v ∈ setterVars line, mapGet s.wmap v = none) :
    textFontStep line i s = s := by
  unfold textFontStep
  cases hm : matchTextFont line with
  | none => rfl
  | some vf =>
    obtain ⟨v, f⟩ := vf
    exact applyToVar_none s v _ (h v (by simp [setterVars, hm]))

theorem radiusStep_noop (line : List Char) (i : Nat) (s : PState)
    (h : ∀ v ∈ setterVars line, mapGet s.wmap v = none) :
    radiusStep line i s = s := by
  unfold radiusStep
  cases hm : matchRadius line with
  | none => rfl
  | some vr =>
    obtain ⟨v, r⟩ := vr
    exact applyToVar_none s v _ (h v (by simp [setterVars, hm]))

theorem borderOpaStep_noop (line : List Char) (i : Nat) (s : PState)
    (h : ∀ v ∈ setterVars line, mapGet s.wmap v = none) :
    borderOpaStep line i s = s := by
  unfold borderOpaStep
  cases hm : matchBorderOpa line with
  | none => rfl
  | some vo =>
    obtain ⟨v, o⟩ := vo
    exact applyToVar_none s v _ (h v (by simp [setterVars, hm]))

theorem alignStep_noop (line : List Char) (i : Nat) (s : PState)
    (h : ∀ v ∈ setterVars line, mapGet s.wmap v = none) :
    alignStep line i s = s := by
  unfold alignStep
  cases hm : matchAlign line with
  | none => rfl
  | some vaxy =>
    obtain ⟨v, al, x, y⟩ := vaxy
    exact applyToVar_none s v _ (h v (by simp [setterVars, hm]))

theorem centerStep_noop (line : List Char) (i : Nat) (s : PState)
    (h : ∀ v ∈ setterVars line, mapGet s.wmap v = none) :
    centerStep line i s = s := by
  unfold centerStep
  cases hm : matchCenter line with
  | none => rfl
  | some v =>
    exact applyToVar_none s v _ (h v (by simp [setterVars, hm]))

end LVGLCppParser

/-- C10: (1) every widget of a parse result has
`sourceLineStart ≤ sourceLineEnd`; (2) `sourceLineEnd` never decreases as
further lines are processed: a widget present at index `j` keeps its index
and its `sourceLineEnd` only grows (under the invariant that holds along
every real run, bounding recorded lines by those already seen); (3) a
non-creation line mutates nothing when every identifier captured by its
matching setters has not been created yet. -/
theorem widget_line_ranges :
    (∀ fileName content : String,
      ∀ w ∈ (LVGLCppParser.parse fileName content).widgets,
        w.sourceLineStart ≤ w.sourceLineEnd) ∧
    (∀ (ls : List (List Char)) (off : Nat) (s : PState), LineInv off s →
      ∀ (j : Nat) (w : PWidget), s.widgets.get? j = some w →
        ∃ w', (LVGLCppParser.processFrom off ls s).widgets.get? j = some w' ∧
          w.sourceLineEnd ≤ w'.sourceLineEnd) ∧
    (∀ (s : PState) (i : Nat) (raw : List Char),
      matchCreate (jsTrim raw) = none →
      (∀ v ∈ setterVars (jsTrim raw), mapGet s.wmap v = none) →
      LVGLCppParser.processLine i raw s = s) := by
  refine ⟨?_, ?_, ?_⟩
  · intro fileName content w hw
    simp only [LVGLCppParser.parse,
      LVGLCppParser.parseWidgets_eq_processFrom] at hw
    obtain ⟨j, hj⟩ := List.mem_iff_get?.mp hw
    have hstrip := buildHierarchy_strip
      (LVGLCppParser.processFrom 0 (splitLines content.data) PState.empty)
    have hj' :
        ((LVGLCppParser.processFrom 0 (splitLines content.data)
            PState.empty).widgets.map stripChildren).get? j =
          some (stripChildren w) := by
      rw [← hstrip, List.get?_map, hj, Option.map_some']
    rw [List.get?_map] at hj'
    cases hw0 : (LVGLCppParser.processFrom 0 (splitLines content.data)
        PState.empty).widgets.get? j with
    | none => rw [hw0] at hj'; exact absurd hj' (by simp)
    | some w0 =>
      rw [hw0] at hj'
      simp only [Option.map_some', Option.some.injEq] at hj'
      have hinv : LineInv (0 + (splitLines content.data).length)
          (LVGLCppParser.processFrom 0 (splitLines content.data)
            PState.empty) := by
        apply LVGLCppParser.processFrom_inv
        intro w hw
        simp [PState.empty] at hw
      have h0 := (hinv w0 (List.get?_mem hw0)).1
      have hs : w0.sourceLineStart = w.sourceLineStart :=
        congrArg (fun x => x.sourceLineStart) hj'
      have he : w0.sourceLineEnd = w.sourceLineEnd :=
        congrArg (fun x => x.sourceLineEnd) hj'
      rw [← hs, ← he]
      exact h0
  · intro ls off s hinv j w hj
    exact LVGLCppParser.processFrom_end_mono ls off s hinv j w hj
  · intro s i raw hc hvars
    simp only [LVGLCppParser.processLine, LVGLCppParser.parsePropertySetters,
      LVGLCppParser.parseStyleSetters, LVGLCppParser.parseLayoutFunctions,
      LVGLCppParser.createStep, hc]
    rw [LVGLCppParser.setTextStep_noop _ i s hvars,
      LVGLCppParser.setSizeStep_noop _ i s hvars,
      LVGLCppParser.setValueStep_noop _ i s hvars,
      LVGLCppParser.setRangeStep_noop _ i s hvars,
      LVGLCppParser.bgColorStep_noop _ i s hvars,
      LVGLCppParser.textColorStep_noop _ i s hvars,
      LVGLCppParser.textFontStep_noop _ i s hvars,
      LVGLCppParser.radiusStep_noop _ i s hvars,
      LVGLCppParser.borderOpaStep_noop _ i s hvars,
      LVGLCppParser.alignStep_noop _ i s hvars,
      LVGLCppParser.centerStep_noop _ i s hvars]

/-- A one-widget state used to instantiate the invariants concretely. -/
def c10State : PState :=
  { widgets := [{ type := "lv_label", variableName := "w1", parent := none,
                  properties := [], styles := [], posX := 0, posY := 0,
                  width := .str "auto", height := .str "auto",
                  children := [], sourceLineStart := 0,
                  sourceLineEnd := 0 }],
    wmap := [("w1", 0)] }

theorem widget_line_ranges_witness :
    (∀ w ∈ (LVGLCppParser.parse "w.cpp"
        "x = lv_label_create(parent);").widgets,
      w.sourceLineStart ≤ w.sourceLineEnd) ∧
    (∃ w', (LVGLCppParser.processFrom 1
          ["lv_label_set_text(w1, \"hi\");".data]
          c10State).widgets.get? 0 = some w' ∧
        0 ≤ w'.sourceLineEnd) ∧
    LVGLCppParser.processLine 5 "lv_label_set_text(ghost, \"hi\");".data
      c10State = c10State := by
  refine ⟨widget_line_ranges.1 "w.cpp" _, ?_, ?_⟩
  · have h := widget_line_ranges.2.1 ["lv_label_set_text(w1, \"hi\");".data]
      1 c10State (by unfold LineInv; decide) 0
      { type := "lv_label", variableName := "w1", parent := none,
        properties := [], styles := [], posX := 0, posY := 0,
        width := .str "auto", height := .str "auto", children := [],
        sourceLineStart := 0, sourceLineEnd := 0 } (by decide)
    obtain ⟨w', hw', _⟩ := h
    exact ⟨w', hw', Nat.zero_le _⟩
  · exact widget_line_ranges.2.2 c10State 5 _ (by decide) (by decide)

/-! ## Symbolic evaluation of the matcher on creation statements -/

theorem takeWhile_all_append {p : Char → Bool} {xs ys : List Char}
    (h : ∀ c ∈ xs, p c = true) :
    List.takeWhile p (xs ++ ys) = xs ++ List.takeWhile p ys := by
  induction xs with
  | nil => rfl
  | cons c cs ih =>
    have hc := h c (List.mem_cons_self c cs)
    simp only [List.cons_append, List.takeWhile_cons, hc, if_true]
    rw [ih (fun d hd => h d (List.mem_cons_of_mem _ hd))]

theorem drop_length_add (xs rest : List Char) (n : Nat) :
    (xs ++ rest).drop (xs.length + n) = rest.drop n := by
  induction xs with
  | nil => simp
  | cons c cs ih =>
    simpa [List.length_cons, Nat.succ_add] using ih

theorem tryIdx_hit {α : Type} (f : List Char → Option α) (cs : List Char)
    (lo i : Nat) (hlo : lo ≤ i) {r : α} (hf : f (cs.drop i) = some r) :
    tryIdx f cs lo i = some (cs.take i, r) := by
  cases i with
  | zero =>
    have h0 : lo = 0 := Nat.le_zero.mp hlo
    simp only [List.drop_zero] at hf
    simp [tryIdx, h0, hf]
  | succ i =>
    have h1 : ¬ (i + 1 < lo) := by omega
    simp [tryIdx, h1, hf]

theorem tryIdx_miss {α : Type} (f : List Char → Option α) (cs : List Char)
    (lo i : Nat) (hlo : ¬ (i + 1 < lo))
    (hf : f (cs.drop (i + 1)) = none) :
    tryIdx f cs lo (i + 1) = tryIdx f cs lo i := by
  simp only [tryIdx]
  rw [if_neg hlo, hf]

theorem tryIdx_chain {α : Type} (f : List Char → Option α) (cs : List Char)
    (lo base : Nat) (hlo : lo ≤ base) :
    ∀ j, (∀ t, 0 < t → t ≤ j → f (cs.drop (base + t)) = none) →
      tryIdx f cs lo (base + j) = tryIdx f cs lo base := by
  intro j
  induction j with
  | zero => intro _; rfl
  | succ j ih =>
    intro h
    have h1 : f (cs.drop ((base + j) + 1)) = none := by
      have h2 : base + (j + 1) = (base + j) + 1 := by omega
      rw [← h2]
      exact h (j + 1) (by omega) (le_refl _)
    have h2 : base + (j + 1) = (base + j) + 1 := by omega
    rw [h2, tryIdx_miss f cs lo (base + j) (by omega) h1]
    exact ih (fun t ht1 ht2 => h t ht1 (by omega))

theorem isPrefixOf_append_self (l cs : List Char) :
    l.isPrefixOf (l ++ cs) = true := by
  induction l with
  | nil => simp [List.isPrefixOf]
  | cons c l ih => simp [List.isPrefixOf, ih]

theorem matchToks_lit {l : List Char} {rest : List RTok} {cs : List Char} :
    matchToks (.lit l :: rest) (l ++ cs) =
      (matchToks rest cs).map (fun gr => (l :: gr.1, gr.2)) := by
  simp [matchToks, isPrefixOf_append_self, List.drop_left]

theorem matchToks_lit_mismatch {a b : Char} (h : (a == b) = false)
    (l : List Char) (rest : List RTok) (cs : List Char) :
    matchToks (.lit (a :: l) :: rest) (b :: cs) = none := by
  simp [matchToks, List.isPrefixOf, h]

theorem matchToks_plus {p : Char → Bool} {rest : List RTok} {xs ys : List Char}
    (hne : xs ≠ []) (hall : ∀ c ∈ xs, p c = true)
    {gs : List (List Char)} {r : List Char}
    (hcont : matchToks rest ys = some (gs, r))
    (hstop : ys.takeWhile p = []) :
    matchToks (.plus p :: rest) (xs ++ ys) = some (xs :: gs, r) := by
  have hrun : (xs ++ ys).takeWhile p = xs := by
    rw [takeWhile_all_append hall, hstop, List.append_nil]
  have hlen : xs.length ≠ 0 := by
    cases xs with
    | nil => exact absurd rfl hne
    | cons c cs => simp
  have hhit := tryIdx_hit (fun s => matchToks rest s) (xs ++ ys) 1 xs.length
    (Nat.one_le_iff_ne_zero.mpr hlen)
    (by rw [List.drop_left]; exact hcont)
  simp [matchToks, hrun, hlen, hhit, List.take_left]

theorem matchToks_star {p : Char → Bool} {rest : List RTok} {xs ys : List Char}
    (hall : ∀ c ∈ xs, p c = true)
    {gs : List (List Char)} {r : List Char}
    (hcont : matchToks rest ys = some (gs, r))
    (hstop : ys.takeWhile p = []) :
    matchToks (.star p :: rest) (xs ++ ys) = some (xs :: gs, r) := by
  have hrun : (xs ++ ys).takeWhile p = xs := by
    rw [takeWhile_all_append hall, hstop, List.append_nil]
  have hhit := tryIdx_hit (fun s => matchToks rest s) (xs ++ ys) 0 xs.length
    (Nat.zero_le _)
    (by rw [List.drop_left]; exact hcont)
  simp [matchToks, hrun, hhit, List.take_left]

/-- One-step unfolding of the `plus` case, as a rewrite equation. -/
theorem matchToks_plus_eq (p : Char → Bool) (rest : List RTok)
    (cs : List Char) :
    matchToks (.plus p :: rest) cs =
      (if ((cs.takeWhile p).length) = 0 then none
       else
        (tryIdx (fun s => matchToks rest s) cs 1
            ((cs.takeWhile p).length)).map
          (fun gr => (gr.1 :: gr.2.1, gr.2.2))) :=
  rfl

/-- The backtracking step of the creation regex: after `lv_`, the greedy
`\w+` first swallows the whole word run `k_create`, then backtracks until
the literal `_create(` fits, capturing exactly `k`. -/
theorem matchToks_plus_create {rest : List RTok} {k ys : List Char}
    (hk : k ≠ []) (hall : ∀ c ∈ k, isWordChar c = true)
    {gs : List (List Char)} {r : List Char}
    (hcont : matchToks rest ys = some (gs, r)) :
    matchToks (.plus isWordChar :: .lit "_create(".data :: rest)
        (k ++ ("_create(".data ++ ys)) =
      some (k :: "_create(".data :: gs, r) := by
  have hklen : k.length ≠ 0 := by
    cases k with
    | nil => exact absurd rfl hk
    | cons c cs => simp
  have hrun : (k ++ ("_create(".data ++ ys)).takeWhile isWordChar =
      k ++ "_create".data := by
    rw [takeWhile_all_append hall]
    rfl
  have hrunlen :
      ((k ++ ("_create(".data ++ ys)).takeWhile isWordChar).length =
        k.length + 7 := by
    rw [hrun, List.length_append]
    rfl
  have hmiss : ∀ t, 0 < t → t ≤ 7 →
      (fun s => matchToks (RTok.lit "_create(".data :: rest) s)
        ((k ++ ("_create(".data ++ ys)).drop (k.length + t)) = none := by
    intro t ht1 ht7
    rw [drop_length_add]
    interval_cases t
    · exact matchToks_lit_mismatch (by decide) _ _ _
    · exact matchToks_lit_mismatch (by decide) _ _ _
    · exact matchToks_lit_mismatch (by decide) _ _ _
    · exact matchToks_lit_mismatch (by decide) _ _ _
    · exact matchToks_lit_mismatch (by decide) _ _ _
    · exact matchToks_lit_mismatch (by decide) _ _ _
    · exact matchToks_lit_mismatch (by decide) _ _ _
  have hchain := tryIdx_chain
    (fun s => matchToks (RTok.lit "_create(".data :: rest) s)
    (k ++ ("_create(".data ++ ys)) 1 k.length
    (Nat.one_le_iff_ne_zero.mpr hklen) 7 hmiss
  have hbase : (fun s => matchToks (RTok.lit "_create(".data :: rest) s)
      ((k ++ ("_create(".data ++ ys)).drop k.length) =
      some ("_create(".data :: gs, r) := by
    rw [List.drop_left]
    show matchToks (.lit "_create(".data :: rest) ("_create(".data ++ ys) = _
    rw [matchToks_lit, hcont]
    rfl
  have hhit := tryIdx_hit
    (fun s => matchToks (RTok.lit "_create(".data :: rest) s)
    (k ++ ("_create(".data ++ ys)) 1 k.length
    (Nat.one_le_iff_ne_zero.mpr hklen) hbase
  have hlen7 : k.length + 7 ≠ 0 := by omega
  rw [matchToks_plus_eq, hrunlen, if_neg hlen7, hchain, hhit,
    List.take_left]
  rfl

/-- Nonempty string of JS word characters (`\w+`). -/
def WordCh (l : List Char) : Prop :=
  l ≠ [] ∧ ∀ c ∈ l, isWordChar c = true

instance (l : List Char) : Decidable (WordCh l) := by
  unfold WordCh
  infer_instance

/-- The character content of a creation statement
`v = lv_k_create(a);`. -/
def createLine (v k a : List Char) : List Char :=
  v ++ (' ' :: '=' :: ' ' :: 'l' :: 'v' :: '_' ::
    (k ++ ('_' :: 'c' :: 'r' :: 'e' :: 'a' :: 't' :: 'e' :: '(' ::
      (a ++ (')' :: ';' :: [])))))

theorem searchToks_of_match {toks : List RTok} {cs : List Char}
    {gs : List (List Char)} {r : List Char}
    (h : matchToks toks cs = some (gs, r)) :
    searchToks toks cs = some gs := by
  cases cs with
  | nil => simp [searchToks, h]
  | cons c cs' => simp [searchToks, h]

/-- Anchored match of the creation regex against a full creation
statement: the greedy/backtracking matcher captures exactly the variable,
the kind and the parenthesised argument. -/
theorem matchToks_reCreate (v k a : List Char)
    (hv : WordCh v) (hk : WordCh k)
    (ha : a ≠ [] ∧ ∀ c ∈ a, c ≠ ')') :
    matchToks reCreate (createLine v k a) =
      some ([v, [' '], ['='], [' '], "lv_".data, k, "_create(".data, a,
        [')'], [], [';']], []) := by
  have h4 : matchToks
      [.plus (fun c => c ≠ ')'), .lit [')'], .star isSpaceChar, .lit [';']]
      (a ++ (')' :: ';' :: [])) = some ([a, [')'], [], [';']], []) := by
    exact matchToks_plus ha.1 (fun c hc => decide_eq_true (ha.2 c hc))
      rfl rfl
  have h5 := @matchToks_plus_create
    [.plus (fun c => c ≠ ')'), .lit [')'], .star isSpaceChar, .lit [';']]
    k (a ++ (')' :: ';' :: [])) hk.1 hk.2
    [a, [')'], [], [';']] [] h4
  have h6 : matchToks
      (.lit "lv_".data :: .plus isWordChar :: .lit "_create(".data ::
        [.plus (fun c => c ≠ ')'), .lit [')'], .star isSpaceChar,
          .lit [';']])
      ("lv_".data ++ (k ++ ("_create(".data ++ (a ++ (')' :: ';' :: []))))) =
      some (["lv_".data, k, "_create(".data, a, [')'], [], [';']], []) := by
    rw [matchToks_lit, h5]
    rfl
  have h9 : matchToks
      (.star isSpaceChar :: .lit "lv_".data :: .plus isWordChar ::
        .lit "_create(".data ::
        [.plus (fun c => c ≠ ')'), .lit [')'], .star isSpaceChar,
          .lit [';']])
      ([' '] ++ ("lv_".data ++ (k ++ ("_create(".data ++
        (a ++ (')' :: ';' :: [])))))) =
      some ([[' '], "lv_".data, k, "_create(".data, a, [')'], [], [';']],
        []) := by
    exact matchToks_star (by decide) h6 rfl
  have h8 : matchToks
      (.lit ['='] :: .star isSpaceChar :: .lit "lv_".data ::
        .plus isWordChar :: .lit "_create(".data ::
        [.plus (fun c => c ≠ ')'), .lit [')'], .star isSpaceChar,
          .lit [';']])
      (['='] ++ ([' '] ++ ("lv_".data ++ (k ++ ("_create(".data ++
        (a ++ (')' :: ';' :: []))))))) =
      some ([['='], [' '], "lv_".data, k, "_create(".data, a, [')'], [],
        [';']], []) := by
    rw [matchToks_lit, h9]
    rfl
  have h7 : matchToks
      (.star isSpaceChar :: .lit ['='] :: .star isSpaceChar ::
        .lit "lv_".data :: .plus isWordChar :: .lit "_create(".data ::
        [.plus (fun c => c ≠ ')'), .lit [')'], .star isSpaceChar,
          .lit [';']])
      ([' '] ++ (['='] ++ ([' '] ++ ("lv_".data ++ (k ++
        ("_create(".data ++ (a ++ (')' :: ';' :: [])))))))) =
      some ([[' '], ['='], [' '], "lv_".data, k, "_create(".data, a,
        [')'], [], [';']], []) := by
    exact matchToks_star (by decide) h8 rfl
  have h10 := @matchToks_plus isWordChar
    (.star isSpaceChar :: .lit ['='] :: .star isSpaceChar ::
      .lit "lv_".data :: .plus isWordChar :: .lit "_create(".data ::
      [.plus (fun c => c ≠ ')'), .lit [')'], .star isSpaceChar,
        .lit [';']])
    v ([' '] ++ (['='] ++ ([' '] ++ ("lv_".data ++ (k ++
      ("_create(".data ++ (a ++ (')' :: ';' :: []))))))))
    hv.1 hv.2
    [[' '], ['='], [' '], "lv_".data, k, "_create(".data, a, [')'], [],
      [';']] [] h7 rfl
  exact h10

theorem matchCreate_createLine (v k a : List Char)
    (hv : WordCh v) (hk : WordCh k)
    (ha : a ≠ [] ∧ ∀ c ∈ a, c ≠ ')') :
    matchCreate (createLine v k a) =
      some (String.mk v, String.mk k, String.mk a) := by
  unfold matchCreate
  rw [searchToks_of_match (matchToks_reCreate v k a hv hk ha)]

/-! ## Trimming facts and core-field preservation -/

theorem word_not_space {c : Char} (h : isWordChar c = true) :
    isSpaceChar c = false := by
  cases hs : isSpaceChar c
  · rfl
  · exfalso
    have hmem : (((((c = ' ' ∨ c = '\t') ∨ c = '\n') ∨ c = '\r') ∨
        c = '\x0b') ∨ c = '\x0c') := by
      simpa [isSpaceChar, Bool.or_eq_true, decide_eq_true_eq] using hs
    rcases hmem with ((((rfl | rfl) | rfl) | rfl) | rfl) | rfl <;>
      exact absurd h (by decide)

theorem dropWhile_eq_self_of_head {p : Char → Bool} {l : List Char}
    (h : ∀ c, l.head? = some c → p c = false) :
    l.dropWhile p = l := by
  cases l with
  | nil => rfl
  | cons c cs =>
    rw [List.dropWhile_cons, h c rfl]
    simp

theorem jsTrim_eq_self {l : List Char}
    (h1 : ∀ c, l.head? = some c → isSpaceChar c = false)
    (h2 : ∀ c, l.getLast? = some c → isSpaceChar c = false) :
    jsTrim l = l := by
  unfold jsTrim
  rw [dropWhile_eq_self_of_head h1]
  rw [dropWhile_eq_self_of_head
    (fun c hc => h2 c (by rwa [List.head?_reverse] at hc))]
  exact List.reverse_reverse l

theorem createLine_getLast? (v k a : List Char) :
    (createLine v k a).getLast? = some ';' := by
  have h1 : (a ++ (')' :: ';' :: [])).getLast? = some ';' := by
    rw [List.getLast?_append]
    rfl
  have h2 : (k ++ (('_' :: 'c' :: 'r' :: 'e' :: 'a' :: 't' :: 'e' :: '(' ::
      []) ++ (a ++ (')' :: ';' :: [])))).getLast? = some ';' := by
    rw [List.getLast?_append, List.getLast?_append, h1]
    rfl
  show (v ++ ((' ' :: '=' :: ' ' :: 'l' :: 'v' :: '_' :: []) ++
    (k ++ (('_' :: 'c' :: 'r' :: 'e' :: 'a' :: 't' :: 'e' :: '(' :: []) ++
      (a ++ (')' :: ';' :: [])))))).getLast? = some ';'
  rw [List.getLast?_append, List.getLast?_append, h2]
  rfl

theorem jsTrim_createLine (v k a : List Char) (hv : WordCh v) :
    jsTrim (createLine v k a) = createLine v k a := by
  obtain ⟨c, v', rfl⟩ := List.exists_cons_of_ne_nil hv.1
  apply jsTrim_eq_self
  · intro d hd
    have hdc : c = d := by
      have : (createLine (c :: v') k a).head? = some c := by
        simp [createLine]
      rw [this] at hd
      exact Option.some.inj hd
    subst hdc
    exact word_not_space (hv.2 c (List.mem_cons_self _ _))
  · intro d hd
    rw [createLine_getLast? (c :: v') k a] at hd
    cases Option.some.inj hd
    decide

/-- The widget fields no property/style/layout setter ever touches. -/
def core4 (w : PWidget) : String × String × Option String × List Nat :=
  (w.type, w.variableName, w.parent, w.children)

/-- Invariance of a projection under every setter-shaped mutation
(anything that only changes properties, styles, position, size and
`sourceLineEnd`). -/
def CoreInv {β : Type} (g : PWidget → β) : Prop :=
  ∀ (w : PWidget) props styles px py wd ht e,
    g { w with properties := props, styles := styles, posX := px,
               posY := py, width := wd, height := ht,
               sourceLineEnd := e } = g w

theorem core4_coreInv : CoreInv core4 := by
  intro w props styles px py wd ht e
  rfl

theorem applyToVar_core {β : Type} (g : PWidget → β) (s : PState)
    (v : String) (f : PWidget → PWidget) (hf : ∀ w, g (f w) = g w) :
    ((applyToVar s v f).widgets.map g = s.widgets.map g) ∧
    (applyToVar s v f).wmap = s.wmap := by
  unfold applyToVar
  cases hm : mapGet s.wmap v with
  | none => exact ⟨rfl, rfl⟩
  | some i => exact ⟨modifyIdx_map _ _ _ _ hf, rfl⟩

namespace LVGLCppParser

theorem setTextStep_core {β : Type} (g : PWidget → β) (hg : CoreInv g)
    (line : List Char) (i : Nat) (s : PState) :
    ((setTextStep line i s).widgets.map g = s.widgets.map g) ∧
    (setTextStep line i s).wmap = s.wmap := by
  unfold setTextStep
  cases hm : matchSetText line with
  | none => exact ⟨rfl, rfl⟩
  | some vt =>
    exact applyToVar_core g s vt.1 _ (fun w => hg w _ _ _ _ _ _ _)

theorem setSizeStep_core {β : Type} (g : PWidget → β) (hg : CoreInv g)
    (line : List Char) (i : Nat) (s : PState) :
    ((setSizeStep line i s).widgets.map g = s.widgets.map g) ∧
    (setSizeStep line i s).wmap = s.wmap := by
  unfold setSizeStep
  cases hm : matchSetSize line with
  | none => exact ⟨rfl, rfl⟩
  | some vwh =>
    exact applyToVar_core g s vwh.1 _ (fun w => hg w _ _ _ _ _ _ _)

theorem setValueStep_core {β : Type} (g : PWidget → β) (hg : CoreInv g)
    (line : List Char) (i : Nat) (s : PState) :
    ((setValueStep line i s).widgets.map g = s.widgets.map g) ∧
    (setValueStep line i s).wmap = s.wmap := by
  unfold setValueStep
  cases hm : matchSetValue line with
  | none => exact ⟨rfl, rfl⟩
  | some vx =>
    exact applyToVar_core g s vx.1 _ (fun w => hg w _ _ _ _ _ _ _)

theorem setRangeStep_core {β : Type} (g : PWidget → β) (hg : CoreInv g)
    (line : List Char) (i : Nat) (s : PState) :
    ((setRangeStep line i s).widgets.map g = s.widgets.map g) ∧
    (setRangeStep line i s).wmap = s.wmap := by
  unfold setRangeStep
  cases hm : matchSetRange line with
  | none => exact ⟨rfl, rfl⟩
  | some vmm =>
    exact applyToVar_core g s vmm.1 _ (fun w => hg w _ _ _ _ _ _ _)

theorem bgColorStep_core {β : Type} (g : PWidget → β) (hg : CoreInv g)
    (line : List Char) (i : Nat) (s : PState) :
    ((bgColorStep line i s).widgets.map g = s.widgets.map g) ∧
    (bgColorStep line i s).wmap = s.wmap := by
  unfold bgColorStep
  cases hm : matchBgColor line with
  | none => exact ⟨rfl, rfl⟩
  | some vc =>
    exact applyToVar_core g s vc.1 _ (fun w => hg w _ _ _ _ _ _ _)

theorem textColorStep_core {β : Type} (g : PWidget → β) (hg : CoreInv g)
    (line : List Char) (i : Nat) (s : PState) :
    ((textColorStep line i s).widgets.map g = s.widgets.map g) ∧
    (textColorStep line i s).wmap = s.wmap := by
  unfold textColorStep
  cases hm : matchTextColor line with
  | none => exact ⟨rfl, rfl⟩
  | some vc =>
    exact applyToVar_core g s vc.1 _ (fun w => hg w _ _ _ _ _ _ _)

theorem textFontStep_core {β : Type} (g : PWidget → β) (hg : CoreInv g)
    (line : List Char) (i : Nat) (s : PState) :
    ((textFontStep line i s).widgets.map g = s.widgets.map g) ∧
    (textFontStep line i s).wmap = s.wmap := by
  unfold textFontStep
  cases hm : matchTextFont line with
  | none => exact ⟨rfl, rfl⟩
  | some vf =>
    exact applyToVar_core g s vf.1 _ (fun w => hg w _ _ _ _ _ _ _)

theorem radiusStep_core {β : Type} (g : PWidget → β) (hg : CoreInv g)
    (line : List Char) (i : Nat) (s : PState) :
    ((radiusStep line i s).widgets.map g = s.widgets.map g) ∧
    (radiusStep line i s).wmap = s.wmap := by
  unfold radiusStep
  cases hm : matchRadius line with
  | none => exact ⟨rfl, rfl⟩
  | some vr =>
    exact applyToVar_core g s vr.1 _ (fun w => hg w _ _ _ _ _ _ _)

theorem borderOpaStep_core {β : Type} (g : PWidget → β) (hg : CoreInv g)
    (line : List Char) (i : Nat) (s : PState) :
    ((borderOpaStep line i s).widgets.map g = s.widgets.map g) ∧
    (borderOpaStep line i s).wmap = s.wmap := by
  unfold borderOpaStep
  cases hm : matchBorderOpa line with
  | none => exact ⟨rfl, rfl⟩
  | some vo =>
    exact applyToVar_core g s vo.1 _ (fun w => hg w _ _ _ _ _ _ _)

theorem alignStep_core {β : Type} (g : PWidget → β) (hg : CoreInv g)
    (line : List Char) (i : Nat) (s : PState) :
    ((alignStep line i s).widgets.map g = s.widgets.map g) ∧
    (alignStep line i s).wmap = s.wmap := by
  unfold alignStep
  cases hm : matchAlign line with
  | none => exact ⟨rfl, rfl⟩
  | some vaxy =>
    exact applyToVar_core g s vaxy.1 _ (fun w => hg w _ _ _ _ _ _ _)

theorem centerStep_core {β : Type} (g : PWidget → β) (hg : CoreInv g)
    (line : List Char) (i : Nat) (s : PState) :
    ((centerStep line i s).widgets.map g = s.widgets.map g) ∧
    (centerStep line i s).wmap = s.wmap := by
  unfold centerStep
  cases hm : matchCenter line with
  | none => exact ⟨rfl, rfl⟩
  | some v =>
    exact applyToVar_core g s v _ (fun w => hg w _ _ _ _ _ _ _)

/-- All eleven setter passes together preserve any setter-invariant
projection of the widget list, and the widget map. -/
theorem settersAfter_core {β : Type} (g : PWidget → β) (hg : CoreInv g)
    (line : List Char) (i : Nat) (s : PState) :
    ((parseLayoutFunctions line i (parseStyleSetters line i
        (parsePropertySetters line i s))).widgets.map g =
      s.widgets.map g) ∧
    (parseLayoutFunctions line i (parseStyleSetters line i
        (parsePropertySetters line i s))).wmap = s.wmap := by
  unfold parsePropertySetters parseStyleSetters parseLayoutFunctions
  constructor
  · rw [(centerStep_core g hg line i _).1, (alignStep_core g hg line i _).1,
      (borderOpaStep_core g hg line i _).1, (radiusStep_core g hg line i _).1,
      (textFontStep_core g hg line i _).1,
      (textColorStep_core g hg line i _).1,
      (bgColorStep_core g hg line i _).1, (setRangeStep_core g hg line i _).1,
      (setValueStep_core g hg line i _).1,
      (setSizeStep_core g hg line i _).1, (setTextStep_core g hg line i _).1]
  · rw [(centerStep_core g hg line i _).2, (alignStep_core g hg line i _).2,
      (borderOpaStep_core g hg line i _).2, (radiusStep_core g hg line i _).2,
      (textFontStep_core g hg line i _).2,
      (textColorStep_core g hg line i _).2,
      (bgColorStep_core g hg line i _).2, (setRangeStep_core g hg line i _).2,
      (setValueStep_core g hg line i _).2,
      (setSizeStep_core g hg line i _).2, (setTextStep_core g hg line i _).2]

/-- Processing a full creation statement from any state appends exactly one
widget record with the captured type, name and parent, and records its
index in the widget map. -/
theorem processLine_create (i : Nat) (s₀ : PState) (v k a : List Char)
    (hv : WordCh v) (hk : WordCh k)
    (ha : a ≠ [] ∧ ∀ c ∈ a, c ≠ ')') :
    ((processLine i (createLine v k a) s₀).widgets.map core4 =
      s₀.widgets.map core4 ++
        [("lv_" ++ String.mk k, String.mk v,
          (if String.mk (jsTrim a) = "parent" then none
           else some (String.mk (jsTrim a))), ([] : List Nat))]) ∧
    (processLine i (createLine v k a) s₀).wmap =
      mapSet s₀.wmap (String.mk v) s₀.widgets.length := by
  have hcs : createStep (createLine v k a) i s₀ =
      { widgets := s₀.widgets ++
          [{ type := "lv_" ++ String.mk k, variableName := String.mk v,
             parent := if String.mk (jsTrim a) = "parent" then none
               else some (String.mk (jsTrim a)),
             properties := [], styles := [], posX := 0, posY := 0,
             width := .str "auto", height := .str "auto", children := [],
             sourceLineStart := i, sourceLineEnd := i }],
        wmap := mapSet s₀.wmap (String.mk v) s₀.widgets.length } := by
    unfold createStep
    rw [matchCreate_createLine v k a hv hk ha]
  simp only [processLine, jsTrim_createLine v k a hv]
  rw [hcs]
  have h := settersAfter_core core4 core4_coreInv (createLine v k a) i
    { widgets := s₀.widgets ++
        [{ type := "lv_" ++ String.mk k, variableName := String.mk v,
           parent := if String.mk (jsTrim a) = "parent" then none
             else some (String.mk (jsTrim a)),
           properties := [], styles := [], posX := 0, posY := 0,
           width := .str "auto", height := .str "auto", children := [],
           sourceLineStart := i, sourceLineEnd := i }],
      wmap := mapSet s₀.wmap (String.mk v) s₀.widgets.length }
  refine ⟨?_, h.2⟩
  rw [h.1]
  simp [core4]

end LVGLCppParser

/-! ## Splitting and further helpers -/

theorem splitLines_no_newline {l : List Char} (h : ∀ c ∈ l, c ≠ '\n') :
    splitLines l = [l] := by
  induction l with
  | nil => rfl
  | cons c cs ih =>
    have hc : ¬ (c = '\n') := h c (List.mem_cons_self _ _)
    have ih' := ih (fun d hd => h d (List.mem_cons_of_mem _ hd))
    simp only [splitLines, if_neg hc, ih']

theorem splitLines_append_newline {l1 l2 : List Char}
    (h : ∀ c ∈ l1, c ≠ '\n') :
    splitLines (l1 ++ '\n' :: l2) = l1 :: splitLines l2 := by
  induction l1 with
  | nil => simp [splitLines]
  | cons c cs ih =>
    have hc : ¬ (c = '\n') := h c (List.mem_cons_self _ _)
    have ih' := ih (fun d hd => h d (List.mem_cons_of_mem _ hd))
    simp only [List.cons_append, splitLines, if_neg hc, List.append_eq, ih']

theorem word_ne_newline {c : Char} (h : isWordChar c = true) : c ≠ '\n' := by
  intro he
  subst he
  exact absurd h (by decide)

theorem createLine_no_newline {v k a : List Char}
    (hv : ∀ c ∈ v, isWordChar c = true)
    (hk : ∀ c ∈ k, isWordChar c = true)
    (ha : ∀ c ∈ a, c ≠ '\n') : ∀ c ∈ createLine v k a, c ≠ '\n' := by
  intro c hc he
  subst he
  unfold createLine at hc
  simp only [List.mem_append, List.mem_cons, List.not_mem_nil, or_false] at hc
  rcases hc with h | h | h | h | h | h | h | h | h | h | h | h | h | h | h |
    h | h | h | h | h
  all_goals
    first
      | exact word_ne_newline (hv _ h) rfl
      | exact word_ne_newline (hk _ h) rfl
      | exact ha _ h rfl
      | exact absurd h (by decide)

theorem mem_of_getLast?_eq {l : List Char} {c : Char}
    (h : l.getLast? = some c) : c ∈ l := by
  have hm : c ∈ l.getLast? := Option.mem_def.mpr h
  obtain ⟨hne, he⟩ := List.mem_getLast?_eq_getLast hm
  rw [he]
  exact List.getLast_mem hne

theorem jsTrim_word {l : List Char}
    (h : ∀ c ∈ l, isWordChar c = true) : jsTrim l = l :=
  jsTrim_eq_self
    (fun c hc =>
      word_not_space (h c (List.mem_of_mem_head? (Option.mem_def.mpr hc))))
    (fun c hc => word_not_space (h c (mem_of_getLast?_eq hc)))

theorem map_eq_cons {α β : Type} {f : α → β} {l : List α} {b : β}
    {bs : List β} (h : l.map f = b :: bs) :
    ∃ x xs, l = x :: xs ∧ f x = b ∧ xs.map f = bs := by
  cases l with
  | nil => simp at h
  | cons x xs =>
    simp only [List.map_cons, List.cons.injEq] at h
    exact ⟨x, xs, rfl, h.1, h.2⟩

theorem map_eq_singleton {α β : Type} {f : α → β} {l : List α} {b : β}
    (h : l.map f = [b]) : ∃ x, l = [x] ∧ f x = b := by
  obtain ⟨x, xs, rfl, hx, hxs⟩ := map_eq_cons h
  cases xs with
  | nil => exact ⟨x, rfl, hx⟩
  | cons y ys => simp at hxs

/-- Parsing a file whose single line is `v = lv_k_create(a);`: exactly one
widget record is produced, and the pre-hierarchy state is explicit. -/
theorem parse_single_create_line (fn v k a : String)
    (hv : WordCh v.data) (hk : WordCh k.data)
    (ha : a.data ≠ [] ∧ (∀ c ∈ a.data, c ≠ ')') ∧ ∀ c ∈ a.data, c ≠ '\n') :
    ∃ w',
      (LVGLCppParser.processLine 0 (createLine v.data k.data a.data)
          PState.empty).widgets = [w'] ∧
      core4 w' = ("lv_" ++ k, v,
        (if String.mk (jsTrim a.data) = "parent" then none
         else some (String.mk (jsTrim a.data))), ([] : List Nat)) ∧
      (LVGLCppParser.processLine 0 (createLine v.data k.data a.data)
          PState.empty).wmap = [(v, 0)] ∧
      (LVGLCppParser.parse fn
          (v ++ " = lv_" ++ k ++ "_create(" ++ a ++ ");")).widgets =
        (LVGLCppParser.buildHierarchy
          (LVGLCppParser.processLine 0 (createLine v.data k.data a.data)
            PState.empty)).widgets := by
  have hproc := LVGLCppParser.processLine_create 0 PState.empty
    v.data k.data a.data hv hk ⟨ha.1, ha.2.1⟩
  have hmap : (LVGLCppParser.processLine 0
      (createLine v.data k.data a.data) PState.empty).widgets.map core4 =
      [("lv_" ++ k, v,
        (if String.mk (jsTrim a.data) = "parent" then none
         else some (String.mk (jsTrim a.data))), ([] : List Nat))] := by
    have := hproc.1
    simpa [PState.empty] using this
  obtain ⟨w', hw', hcore⟩ := map_eq_singleton hmap
  refine ⟨w', hw', hcore, ?_, ?_⟩
  · have := hproc.2
    simpa [PState.empty, mapSet] using this
  · have hdata : (v ++ " = lv_" ++ k ++ "_create(" ++ a ++ ");").data =
        createLine v.data k.data a.data := by
      simp [String.data_append, createLine, List.append_assoc]
    have hlines :
        splitLines (v ++ " = lv_" ++ k ++ "_create(" ++ a ++ ");").data =
          [createLine v.data k.data a.data] := by
      rw [hdata]
      exact splitLines_no_newline
        (createLine_no_newline hv.2 hk.2 ha.2.2)
    unfold LVGLCppParser.parse
    rw [hlines]
    show (LVGLCppParser.parseWidgets
      [createLine v.data k.data a.data]).widgets = _
    rw [LVGLCppParser.parseWidgets_eq_processFrom]
    rfl

/-- The concrete label scenario: the first test of the repository's test
file (spec property 7). -/
def exC2Input : String :=
  "lv_obj_t * scale_label = NULL;\n\nvoid create_screen(lv_obj_t * parent) \x7b\n    scale_label = lv_label_create(parent);\n    lv_label_set_text(scale_label, \"0.0g\");\n    lv_obj_set_style_text_color(scale_label, lv_color_hex(0x00FFFF), 0);\n\x7d\n"

/-- C2: a source text whose single creation statement is
`v = lv_k_create(parent);` parses to exactly one widget with type
`lv_k`, variable name `v` and a null parent; and the concrete
`scale_label` scenario yields exactly the expected widget record,
including `text` and `text_color`. -/
theorem single_creation_statement_parses :
    (∀ (fn v k : String), WordCh v.data → WordCh k.data →
      (LVGLCppParser.parse fn
          (v ++ " = lv_" ++ k ++ "_create(parent);")).widgets.length = 1 ∧
      ∀ w ∈ (LVGLCppParser.parse fn
          (v ++ " = lv_" ++ k ++ "_create(parent);")).widgets,
        w.type = "lv_" ++ k ∧ w.variableName = v ∧ w.parent = none) ∧
    (LVGLCppParser.parse "test.cpp" exC2Input).widgets =
      [{ type := "lv_label", variableName := "scale_label", parent := none,
         properties := [("text", "0.0g")],
         styles := [("text_color", "0x00FFFF")], posX := 0, posY := 0,
         width := .str "auto", height := .str "auto", children := [],
         sourceLineStart := 3, sourceLineEnd := 5 }] := by
  constructor
  · intro fn v k hv hk
    obtain ⟨w', hw', hcore, hwm, hparse⟩ :=
      parse_single_create_line fn v k "parent" hv hk (by decide)
    have heq : (v ++ " = lv_" ++ k ++ "_create(" ++ "parent" ++ ");") =
        (v ++ " = lv_" ++ k ++ "_create(parent);") := by
      apply String.ext
      simp [String.data_append, List.append_assoc]
    rw [heq] at hparse
    have hcond : (if String.mk (jsTrim "parent".data) = "parent" then
        (none : Option String)
        else some (String.mk (jsTrim "parent".data))) = none := by decide
    rw [hcond] at hcore
    have hp : w'.parent = none := congrArg (fun t => t.2.2.1) hcore
    have hb : LVGLCppParser.buildHierarchy
        (LVGLCppParser.processLine 0
          (createLine v.data k.data "parent".data) PState.empty) =
        LVGLCppParser.processLine 0
          (createLine v.data k.data "parent".data) PState.empty := by
      unfold LVGLCppParser.buildHierarchy
      rw [hwm]
      simp only [List.foldl_cons, List.foldl_nil]
      unfold LVGLCppParser.linkStep
      rw [hw']
      simp [hp]
    rw [hparse, hb, hw']
    refine ⟨rfl, ?_⟩
    intro w hw
    rw [List.mem_singleton] at hw
    subst hw
    exact ⟨congrArg (fun t => t.1) hcore,
      congrArg (fun t => t.2.1) hcore, hp⟩
  · decide

theorem single_creation_statement_parses_witness :
    (LVGLCppParser.parse "a.cpp"
        ("tare_btn" ++ " = lv_" ++ "btn" ++ "_create(parent);")).widgets.length
      = 1 := by
  have h := single_creation_statement_parses.1 "a.cpp" "tare_btn" "btn"
    (by decide) (by decide)
  exact h.1

/-! ## Soundness of the matcher's captured chunks -/

theorem mem_take_takeWhile {p : Char → Bool} :
    ∀ (cs : List Char) (j : Nat), j ≤ (cs.takeWhile p).length →
      ∀ c ∈ cs.take j, p c = true := by
  intro cs
  induction cs with
  | nil =>
    intro j hj c hc
    simp at hc
  | cons x xs ih =>
    intro j hj c hc
    cases j with
    | zero => simp at hc
    | succ j =>
      rw [List.takeWhile_cons] at hj
      cases hx : p x with
      | false =>
        rw [hx] at hj
        simp at hj
      | true =>
        rw [hx] at hj
        simp only [if_true, List.length_cons, Nat.succ_le_succ_iff] at hj
        rw [List.take_succ_cons] at hc
        rcases List.mem_cons.mp hc with rfl | hc'
        · exact hx
        · exact ih j hj c hc'

theorem tryIdx_sound {α : Type} (f : List Char → Option α) (cs : List Char)
    (lo : Nat) :
    ∀ (i : Nat) (g : List Char) (r : α), tryIdx f cs lo i = some (g, r) →
      ∃ j, j ≤ i ∧ g = cs.take j ∧ f (cs.drop j) = some r := by
  intro i
  induction i with
  | zero =>
    intro g r h
    simp only [tryIdx] at h
    split at h
    · cases hf : f cs with
      | none => rw [hf] at h; simp at h
      | some r' =>
        rw [hf] at h
        simp only [Option.map_some', Option.some.injEq, Prod.mk.injEq] at h
        refine ⟨0, le_refl _, ?_, ?_⟩
        · rw [← h.1]; rfl
        · rw [List.drop_zero, hf, h.2]
    · simp at h
  | succ i ih =>
    intro g r h
    simp only [tryIdx] at h
    split at h
    · simp at h
    · split at h
      · rename_i r' hf
        simp only [Option.some.injEq, Prod.mk.injEq] at h
        exact ⟨i + 1, le_refl _, h.1.symm, by rw [hf, h.2]⟩
      · obtain ⟨j, hj, hg, hf⟩ := ih g r h
        exact ⟨j, by omega, hg, hf⟩

theorem matchToks_sound :
    ∀ (toks : List RTok) (cs : List Char) (gs : List (List Char))
      (r : List Char), matchToks toks cs = some (gs, r) →
      ∀ (n : Nat) (p : Char → Bool), toks.get? n = some (.plus p) →
        ∀ g, gs.get? n = some g → ∀ c ∈ g, p c = true := by
  intro toks
  induction toks with
  | nil =>
    intro cs gs r h n p hn
    simp at hn
  | cons t ts ih =>
    intro cs gs r h n p hn g hg c hc
    cases t with
    | lit l =>
      simp only [matchToks] at h
      split at h
      · cases hm : matchToks ts (cs.drop l.length) with
        | none => rw [hm] at h; simp at h
        | some gr =>
          rw [hm] at h
          simp only [Option.map_some', Option.some.injEq, Prod.mk.injEq] at h
          cases n with
          | zero => simp at hn
          | succ n =>
            have hgs : gs = l :: gr.1 := h.1.symm
            rw [hgs] at hg
            exact ih (cs.drop l.length) gr.1 gr.2 (by rw [hm]) n p
              (by simpa using hn) g (by simpa using hg) c hc
      · simp at h
    | plus q =>
      simp only [matchToks] at h
      split at h
      · simp at h
      · rename_i hrun
        cases htry : tryIdx (fun s => matchToks ts s) cs 1
            ((cs.takeWhile q).length) with
        | none => rw [htry] at h; simp at h
        | some gr =>
          rw [htry] at h
          simp only [Option.map_some', Option.some.injEq, Prod.mk.injEq] at h
          obtain ⟨j, hj, hg0, hf⟩ :=
            tryIdx_sound (fun s => matchToks ts s) cs 1 _ gr.1 gr.2
              (by rw [htry])
          cases n with
          | zero =>
            have hq : q = p := RTok.plus.inj (Option.some.inj hn)
            subst hq
            have hgs : gs = gr.1 :: gr.2.1 := h.1.symm
            rw [hgs] at hg
            have hgg : gr.1 = g := by simpa using hg
            rw [← hgg, hg0] at hc
            exact mem_take_takeWhile cs j hj c hc
          | succ n =>
            have hgs : gs = gr.1 :: gr.2.1 := h.1.symm
            rw [hgs] at hg
            exact ih (cs.drop j) gr.2.1 gr.2.2 hf n p
              (by simpa using hn) g (by simpa using hg) c hc
    | star q =>
      simp only [matchToks] at h
      cases htry : tryIdx (fun s => matchToks ts s) cs 0
          ((cs.takeWhile q).length) with
      | none => rw [htry] at h; simp at h
      | some gr =>
        rw [htry] at h
        simp only [Option.map_some', Option.some.injEq, Prod.mk.injEq] at h
        obtain ⟨j, hj, hg0, hf⟩ :=
          tryIdx_sound (fun s => matchToks ts s) cs 0 _ gr.1 gr.2
            (by rw [htry])
        cases n with
        | zero => exact absurd (Option.some.inj hn) (by simp)
        | succ n =>
          have hgs : gs = gr.1 :: gr.2.1 := h.1.symm
          rw [hgs] at hg
          exact ih (cs.drop j) gr.2.1 gr.2.2 hf n p
            (by simpa using hn) g (by simpa using hg) c hc

theorem searchToks_sound {toks : List RTok} :
    ∀ (cs : List Char) (gs : List (List Char)),
      searchToks toks cs = some gs →
      ∃ cs' r, matchToks toks cs' = some (gs, r) := by
  intro cs
  induction cs with
  | nil =>
    intro gs h
    simp only [searchToks] at h
    split at h
    · rename_i gr hm
      refine ⟨[], gr.2, ?_⟩
      rw [hm, ← Option.some.inj h]
    · simp at h
  | cons c cs' ih =>
    intro gs h
    simp only [searchToks] at h
    split at h
    · rename_i gr hm
      refine ⟨c :: cs', gr.2, ?_⟩
      rw [hm, ← Option.some.inj h]
    · exact ih gs h

/-- C9: a creation statement whose parent argument contains a nested call
with its own closing parenthesis is not recognized (no widget record),
because the `[^)]+` argument class cannot cross the first `)`;
conversely, every creation call whose argument text is nonempty and free
of `)` produces exactly one widget, and any argument the matcher captures
is provably free of `)`. -/
theorem creation_argument_no_rparen :
    ((LVGLCppParser.parse "t.cpp"
        "w = lv_label_create(lv_scr_act());").widgets = [] ∧
      matchCreate (jsTrim "w = lv_label_create(lv_scr_act());".data) =
        none) ∧
    (∀ (fn v k a : String), WordCh v.data → WordCh k.data →
      a.data ≠ [] → (∀ c ∈ a.data, c ≠ ')') → (∀ c ∈ a.data, c ≠ '\n') →
      (LVGLCppParser.parse fn
          (v ++ " = lv_" ++ k ++ "_create(" ++ a ++ ");")).widgets.length
        = 1 ∧
      ∀ w ∈ (LVGLCppParser.parse fn
          (v ++ " = lv_" ++ k ++ "_create(" ++ a ++ ");")).widgets,
        w.type = "lv_" ++ k ∧ w.variableName = v) ∧
    (∀ (line : List Char) (v k a : String),
      matchCreate line = some (v, k, a) → ∀ c ∈ a.data, c ≠ ')') := by
  refine ⟨⟨by decide, by decide⟩, ?_, ?_⟩
  · intro fn v k a hv hk ha1 ha2 ha3
    obtain ⟨w', hw', hcore, hwm, hparse⟩ :=
      parse_single_create_line fn v k a hv hk ⟨ha1, ha2, ha3⟩
    have hBH := buildHierarchy_map (fun w => (w.type, w.variableName))
      (fun _ _ => rfl)
      (LVGLCppParser.processLine 0 (createLine v.data k.data a.data)
        PState.empty)
    rw [hw'] at hBH
    simp only [List.map_cons, List.map_nil] at hBH
    obtain ⟨w2, hw2, hc2⟩ := map_eq_singleton hBH
    constructor
    · rw [hparse, hw2]
      rfl
    · intro w hw
      rw [hparse, hw2, List.mem_singleton] at hw
      rw [hw]
      exact ⟨(congrArg (fun t => t.1) hc2).trans
          (congrArg (fun t => t.1) hcore),
        (congrArg (fun t => t.2) hc2).trans
          (congrArg (fun t => t.2.1) hcore)⟩
  · intro line v k a h
    unfold matchCreate at h
    split at h
    · rename_i v' c1 c2 c3 c4 k' c5 a' c6 c7 c8 heq
      simp only [Option.some.injEq, Prod.mk.injEq] at h
      obtain ⟨cs', r, hm⟩ := searchToks_sound _ _ heq
      have hs := matchToks_sound reCreate cs'
        [v', c1, c2, c3, c4, k', c5, a', c6, c7, c8] r hm 7
        (fun c => decide (c ≠ ')')) rfl a' rfl
      intro c hc
      have hadata : a.data = a' := by
        rw [← h.2.2]
      rw [hadata] at hc
      exact of_decide_eq_true (hs c hc)
    · exact absurd h (by simp)

theorem creation_argument_no_rparen_witness :
    (LVGLCppParser.parse "w.cpp"
        ("w1" ++ " = lv_" ++ "label" ++ "_create(" ++ "cont" ++
          ");")).widgets.length = 1 ∧
    (∀ c ∈ "root".data, c ≠ ')') := by
  constructor
  · exact (creation_argument_no_rparen.2.1 "w.cpp" "w1" "label" "cont"
      (by decide) (by decide) (by decide) (by decide) (by decide)).1
  · exact creation_argument_no_rparen.2.2 "x = lv_btn_create(root);".data
      "x" "btn" "root" (by decide)

theorem word_ne_rparen {c : Char} (h : isWordChar c = true) : c ≠ ')' := by
  intro he
  subst he
  exact absurd h (by decide)

/-- C3 counterexample: a widget whose creation call names the unknown
parent `ghost` is parsed (one widget record exists) but the
root-selection of `createProjectFromArduino` drops it: the page gets no
root widget at all, contradicting "placed among the root-level widgets
and not dropped". -/
theorem unresolved_parent_dropped :
    (LVGLCppParser.parse "t.cpp"
        "a = lv_label_create(ghost);").widgets.length = 1 ∧
    pageRootWidgets
      (LVGLCppParser.parse "t.cpp"
        "a = lv_label_create(ghost);").widgets = [] := by
  decide

/-- C3 amended: a widget with an unresolvable parent stays in the parsed
file's flat widget list, unattached (its parent field keeps the name, no
`children` list references it), but the page builder's root filter
excludes it, so it does not appear among the page's root widgets. -/
theorem unresolved_parent_left_unattached (fn v k p : String)
    (hv : WordCh v.data) (hk : WordCh k.data) (hp : WordCh p.data)
    (hpp : p ≠ "parent") (hpv : p ≠ v) :
    (LVGLCppParser.parse fn
        (v ++ " = lv_" ++ k ++ "_create(" ++ p ++ ");")).widgets.length
      = 1 ∧
    (∀ w ∈ (LVGLCppParser.parse fn
        (v ++ " = lv_" ++ k ++ "_create(" ++ p ++ ");")).widgets,
      w.parent = some p ∧ w.children = []) ∧
    pageRootWidgets (LVGLCppParser.parse fn
        (v ++ " = lv_" ++ k ++ "_create(" ++ p ++ ");")).widgets = [] := by
  obtain ⟨w', hw', hcore, hwm, hparse⟩ :=
    parse_single_create_line fn v k p hv hk
      ⟨hp.1, fun c hc => word_ne_rparen (hp.2 c hc),
        fun c hc => word_ne_newline (hp.2 c hc)⟩
  have hiq : String.mk (jsTrim p.data) = p := by
    rw [jsTrim_word hp.2]
  rw [hiq, if_neg hpp] at hcore
  have hpar : w'.parent = some p := congrArg (fun t => t.2.2.1) hcore
  have hch : w'.children = [] := congrArg (fun t => t.2.2.2) hcore
  have hne : p ≠ "" := by
    intro he
    apply hp.1
    rw [he]
  have hmg : mapGet [(v, (0 : Nat))] p = none := by
    have hvp : ¬ (v = p) := fun he => hpv he.symm
    simp [mapGet, List.find?, hvp]
  have hb : LVGLCppParser.buildHierarchy
      (LVGLCppParser.processLine 0 (createLine v.data k.data p.data)
        PState.empty) =
      LVGLCppParser.processLine 0 (createLine v.data k.data p.data)
        PState.empty := by
    unfold LVGLCppParser.buildHierarchy
    rw [hwm]
    simp only [List.foldl_cons, List.foldl_nil]
    unfold LVGLCppParser.linkStep
    rw [hw', hwm]
    simp [hpar, hne, hpp, hmg]
  rw [hparse, hb, hw']
  refine ⟨rfl, ?_, ?_⟩
  · intro w hw
    rw [List.mem_singleton] at hw
    rw [hw]
    exact ⟨hpar, hch⟩
  · simp [pageRootWidgets, hpar, hne, hpp]

theorem unresolved_parent_left_unattached_witness :
    (LVGLCppParser.parse "t.cpp"
        ("a" ++ " = lv_" ++ "label" ++ "_create(" ++ "ghost" ++
          ");")).widgets.length = 1 ∧
    pageRootWidgets (LVGLCppParser.parse "t.cpp"
        ("a" ++ " = lv_" ++ "label" ++ "_create(" ++ "ghost" ++
          ");")).widgets = [] := by
  have h := unresolved_parent_left_unattached "t.cpp" "a" "label" "ghost"
    (by decide) (by decide) (by decide) (by decide) (by decide)
  exact ⟨h.1, h.2.2⟩

/-- C4 counterexample: two creation statements for the same identifier
yield a widget collection with TWO records, not one — the claim's "does
not add a second widget record" fails on the code (`this.widgets.push`
runs on every creation match; only `widgetMap` overwrites). -/
theorem duplicate_creation_duplicates :
    ¬ ((LVGLCppParser.parse "t.cpp"
        "a = lv_label_create(parent);\na = lv_btn_create(parent);"
        ).widgets.length = 1) := by
  decide

/-- C4 amended: a later creation for the same identifier pushes a fresh
record (both records remain in the widget collection, the first keeping
its kind), while the identifier map is overwritten to point at the later
record's index. -/
theorem duplicate_creation_appends (fn v k1 k2 : String)
    (hv : WordCh v.data) (hk1 : WordCh k1.data) (hk2 : WordCh k2.data) :
    (LVGLCppParser.parse fn
        (v ++ " = lv_" ++ k1 ++ "_create(parent);\n" ++ v ++ " = lv_" ++
          k2 ++ "_create(parent);")).widgets.map core4 =
      [("lv_" ++ k1, v, none, []), ("lv_" ++ k2, v, none, [])] ∧
    mapGet (LVGLCppParser.parseWidgets (splitLines
        (v ++ " = lv_" ++ k1 ++ "_create(parent);\n" ++ v ++ " = lv_" ++
          k2 ++ "_create(parent);").data)).wmap v = some 1 := by
  have hdata : (v ++ " = lv_" ++ k1 ++ "_create(parent);\n" ++ v ++
      " = lv_" ++ k2 ++ "_create(parent);").data =
      createLine v.data k1.data "parent".data ++ '\n' ::
        createLine v.data k2.data "parent".data := by
    simp [String.data_append, createLine, List.append_assoc]
  have hlines : splitLines (v ++ " = lv_" ++ k1 ++ "_create(parent);\n" ++
      v ++ " = lv_" ++ k2 ++ "_create(parent);").data =
      [createLine v.data k1.data "parent".data,
        createLine v.data k2.data "parent".data] := by
    rw [hdata,
      splitLines_append_newline
        (createLine_no_newline hv.2 hk1.2 (by decide)),
      splitLines_no_newline (createLine_no_newline hv.2 hk2.2 (by decide))]
  have hcond : (if String.mk (jsTrim "parent".data) = "parent" then
      (none : Option String)
      else some (String.mk (jsTrim "parent".data))) = none := by decide
  have hproc1 := LVGLCppParser.processLine_create 0 PState.empty
    v.data k1.data "parent".data hv hk1 (by decide)
  rw [hcond] at hproc1
  have hmap1 : (LVGLCppParser.processLine 0
      (createLine v.data k1.data "parent".data) PState.empty).widgets.map
        core4 = [("lv_" ++ k1, v, none, ([] : List Nat))] := by
    have := hproc1.1
    simpa [PState.empty] using this
  have hwm1 : (LVGLCppParser.processLine 0
      (createLine v.data k1.data "parent".data) PState.empty).wmap =
      [(v, 0)] := by
    have := hproc1.2
    simpa [PState.empty, mapSet] using this
  have hlen1 : (LVGLCppParser.processLine 0
      (createLine v.data k1.data "parent".data) PState.empty
      ).widgets.length = 1 := by
    have := congrArg List.length hmap1
    simpa using this
  have hproc2 := LVGLCppParser.processLine_create 1
    (LVGLCppParser.processLine 0
      (createLine v.data k1.data "parent".data) PState.empty)
    v.data k2.data "parent".data hv hk2 (by decide)
  rw [hcond] at hproc2
  have hmap2 : (LVGLCppParser.processLine 1
      (createLine v.data k2.data "parent".data)
      (LVGLCppParser.processLine 0
        (createLine v.data k1.data "parent".data)
        PState.empty)).widgets.map core4 =
      [("lv_" ++ k1, v, none, ([] : List Nat)),
        ("lv_" ++ k2, v, none, ([] : List Nat))] := by
    rw [hproc2.1, hmap1]
    rfl
  have hwm2 : (LVGLCppParser.processLine 1
      (createLine v.data k2.data "parent".data)
      (LVGLCppParser.processLine 0
        (createLine v.data k1.data "parent".data)
        PState.empty)).wmap = [(v, 1)] := by
    rw [hproc2.2, hwm1, hlen1]
    simp [mapSet]
  obtain ⟨w1, ws1, hws1, hc1, hmapr⟩ := map_eq_cons hmap2
  obtain ⟨w2, hws2, hc2⟩ := map_eq_singleton hmapr
  have hwidgets : (LVGLCppParser.processLine 1
      (createLine v.data k2.data "parent".data)
      (LVGLCppParser.processLine 0
        (createLine v.data k1.data "parent".data)
        PState.empty)).widgets = [w1, w2] := by
    rw [hws1, hws2]
  have hp2 : w2.parent = none := congrArg (fun t => t.2.2.1) hc2
  have hb : LVGLCppParser.buildHierarchy
      (LVGLCppParser.processLine 1
        (createLine v.data k2.data "parent".data)
        (LVGLCppParser.processLine 0
          (createLine v.data k1.data "parent".data)
          PState.empty)) =
      LVGLCppParser.processLine 1
        (createLine v.data k2.data "parent".data)
        (LVGLCppParser.processLine 0
          (createLine v.data k1.data "parent".data)
          PState.empty) := by
    unfold LVGLCppParser.buildHierarchy
    rw [hwm2]
    simp only [List.foldl_cons, List.foldl_nil]
    unfold LVGLCppParser.linkStep
    rw [hwidgets]
    simp [hp2]
  constructor
  · unfold LVGLCppParser.parse
    rw [hlines]
    show (LVGLCppParser.parseWidgets
      [createLine v.data k1.data "parent".data,
        createLine v.data k2.data "parent".data]).widgets.map core4 = _
    rw [LVGLCppParser.parseWidgets_eq_processFrom]
    show (LVGLCppParser.buildHierarchy
      (LVGLCppParser.processLine 1
        (createLine v.data k2.data "parent".data)
        (LVGLCppParser.processLine 0
          (createLine v.data k1.data "parent".data)
          PState.empty))).widgets.map core4 = _
    rw [hb]
    exact hmap2
  · rw [hlines, LVGLCppParser.parseWidgets_eq_processFrom]
    show mapGet (LVGLCppParser.buildHierarchy
      (LVGLCppParser.processLine 1
        (createLine v.data k2.data "parent".data)
        (LVGLCppParser.processLine 0
          (createLine v.data k1.data "parent".data)
          PState.empty))).wmap v = some 1
    rw [hb, hwm2]
    simp [mapGet, List.find?]

theorem duplicate_creation_appends_witness :
    (LVGLCppParser.parse "t.cpp"
        ("a" ++ " = lv_" ++ "label" ++ "_create(parent);\n" ++ "a" ++
          " = lv_" ++ "btn" ++ "_create(parent);")).widgets.map core4 =
      [("lv_" ++ "label", "a", none, []),
        ("lv_" ++ "btn", "a", none, [])] :=
  (duplicate_creation_appends "t.cpp" "a" "label" "btn" (by decide)
    (by decide) (by decide)).1

/-! ## C1: the percentage-size round trip -/

/-- The creation plus percentage `lv_obj_set_size` input. -/
def pctInput : String :=
  "pct_box = lv_obj_create(parent);\nlv_obj_set_size(pct_box, LV_PCT(50), LV_PCT(100));"

/-- The widget the parser extracts from `pctInput`. -/
def pctWidget : PWidget :=
  { type := "lv_obj", variableName := "pct_box", parent := none,
    properties := [], styles := [], posX := 0, posY := 0,
    width := .str "50%", height := .str "LV_PCT(100", children := [],
    sourceLineStart := 0, sourceLineEnd := 1 }

/-- The code `generateWidget` emits for the converted `pctWidget`. -/
def pctGenerated : String :=
  "pct_box = lv_obj_create(parent);\nlv_obj_set_size(pct_box, LV_PCT(50%), LV_PCT(100);\nlv_obj_set_pos(pct_box, 0, 0);\n"

/-- C1 (failing evaluation): the percentage round trip is broken at every
stage.  Import marks only the width as `"50%"` — the height capture stops
at the first `)` and stays the literal `"LV_PCT(100"`; export wraps the
already-marked string again, emitting the malformed `LV_PCT(50%)` (and
`LV_PCT(100)` is never reconstituted); re-import then stores the literal
`"LV_PCT(50%)"` instead of recovering `"50%"`. -/
theorem pct_roundtrip_broken :
    ((LVGLCppParser.parse "t.cpp" pctInput).widgets = [pctWidget]) ∧
    (∀ rnd : Nat → String,
      generateWidget rnd (convertWidget (PTree.node pctWidget []))
        "parent" = pctGenerated) ∧
    ((LVGLCppParser.parse "g.cpp" pctGenerated).widgets.map
        (fun w => w.width) = [SizeV.str "LV_PCT(50%)"]) ∧
    SizeV.str "LV_PCT(50%)" ≠ SizeV.str "50%" := by
  refine ⟨by decide, ?_, by decide, by decide⟩
  intro rnd
  rfl

/-! ## C5: generator determinism and the random identifier fallback -/

mutual

/-- Does every widget of the tree carry a nonempty identifier? -/
def allIdsNonempty : EEZWidget → Bool
  | .node f cs => (f.identifier ≠ "") && allIdsNonemptyList cs

def allIdsNonemptyList : List EEZWidget → Bool
  | [] => true
  | c :: cs => allIdsNonempty c && allIdsNonemptyList cs

end

theorem genLines_det :
    ∀ w : EEZWidget, allIdsNonempty w = true →
      ∀ (rnd1 rnd2 : Nat → String) (pv : String) (ctr : Nat),
        genLines rnd1 w pv ctr = genLines rnd2 w pv ctr :=
  @EEZWidget.rec
    (fun w => allIdsNonempty w = true →
      ∀ (rnd1 rnd2 : Nat → String) (pv : String) (ctr : Nat),
        genLines rnd1 w pv ctr = genLines rnd2 w pv ctr)
    (fun cs => allIdsNonemptyList cs = true →
      ∀ (rnd1 rnd2 : Nat → String) (pv : String) (ctr : Nat),
        genLinesList rnd1 cs pv ctr = genLinesList rnd2 cs pv ctr)
    (fun f cs ih h rnd1 rnd2 pv ctr => by
      simp only [allIdsNonempty, Bool.and_eq_true, decide_eq_true_eq] at h
      have hcs := ih h.2 rnd1 rnd2
      simp only [genLines, genLinesNode, if_pos h.1, hcs])
    (fun _ rnd1 rnd2 pv ctr => by simp only [genLinesList])
    (fun c cs ihc ihcs h rnd1 rnd2 pv ctr => by
      simp only [allIdsNonemptyList, Bool.and_eq_true] at h
      simp only [genLinesList, ihc h.1 rnd1 rnd2 pv ctr,
        ihcs h.2 rnd1 rnd2 pv])

/-- A converted widget that lost its identifier. -/
def noIdWidget : EEZWidget :=
  EEZWidget.node
    { type := "LVGLContainerWidget", identifier := "", left := 0, top := 0,
      leftUnit := "px", topUnit := "px", width := .str "",
      height := .str "", widthUnit := "px", heightUnit := "px",
      text := none, textType := none, value := none, rangeMin := none,
      rangeMax := none, styleDef := [], longMode := none, recolor := none,
      checkable := none } []

/-- C5: generation is deterministic — independent of the random supply —
exactly when every widget carries a nonempty identifier; but a widget
lacking an identifier is neither rejected nor flagged: the generator
silently synthesizes `obj_<random>` and its output depends on the random
draw (two runs differ). -/
theorem generator_determinism_and_fallback :
    (∀ w : EEZWidget, allIdsNonempty w = true →
      ∀ (rnd1 rnd2 : Nat → String) (pv : String) (ctr : Nat),
        genLines rnd1 w pv ctr = genLines rnd2 w pv ctr) ∧
    (generateWidget (fun _ => "aaaaaaaaa") noIdWidget "parent" =
      "obj_aaaaaaaaa = lv_obj_create(parent);\nlv_obj_set_pos(obj_aaaaaaaaa, 0, 0);\n") ∧
    (generateWidget (fun _ => "aaaaaaaaa") noIdWidget "parent" ≠
      generateWidget (fun _ => "bbbbbbbbb") noIdWidget "parent") := by
  refine ⟨genLines_det, rfl, ?_⟩
  intro h
  exact absurd (congrArg String.data h) (by decide)

theorem generator_determinism_and_fallback_witness :
    genLines (fun _ => "aaaaaaaaa")
        (EEZWidget.node
          { type := "LVGLLabelWidget", identifier := "lbl", left := 0,
            top := 0, leftUnit := "px", topUnit := "px",
            width := .str "", height := .str "", widthUnit := "px",
            heightUnit := "px", text := some "hi",
            textType := some "literal", value := none, rangeMin := none,
            rangeMax := none, styleDef := [], longMode := some "WRAP",
            recolor := some false, checkable := none } [])
        "parent" 0 =
      genLines (fun _ => "bbbbbbbbb")
        (EEZWidget.node
          { type := "LVGLLabelWidget", identifier := "lbl", left := 0,
            top := 0, leftUnit := "px", topUnit := "px",
            width := .str "", height := .str "", widthUnit := "px",
            heightUnit := "px", text := some "hi",
            textType := some "literal", value := none, rangeMin := none,
            rangeMax := none, styleDef := [], longMode := some "WRAP",
            recolor := some false, checkable := none } [])
        "parent" 0 :=
  generator_determinism_and_fallback.1 _ (by decide) _ _ "parent" 0

end StudioCpp
